import Mathlib

/-!
Verification of the GovInfo ingestion engine (`govinfo_client`).

This file gives a shallow embedding, in Lean, of the parts of the repository
that the verified claims are about:

* the pydantic record types in `src/govinfo_client/models/` (collection,
  package and granule records, both the basic listing forms and the
  full-detail summary forms);
* the SQLAlchemy rows of `src/govinfo_client/db/models.py`, modelled as plain
  structures, with the database tables modelled as lists of rows and the
  `session.scalar(select ... where key == k)` / in-place mutation /
  `session.add` pattern modelled as find / replace-by-key / append;
* the pagination helper `GovInfoClient.iter_collection_packages` of
  `src/govinfo_client/client.py`, with the remote transport abstracted as a
  function from an offset mark to one page response, and generator laziness
  modelled with an explicit fuel argument;
* the ingestion service `DataIngestion` of
  `src/govinfo_client/services/ingestion.py`: the basic and summary merges
  for packages and granules, the two orchestrator runs, and the search-result
  cache writer.

Python `datetime` values are modelled as natural numbers (seconds), so
`timedelta(hours=h)` is `h * 3600` and `datetime.utcnow()` is an explicit
`now` argument.  SHA-256 (`hashlib.sha256(...).hexdigest()`) is modelled as
an abstract function argument `sha256_hexdigest : String → String`; the code
treats the digest as an opaque key, so nothing below depends on its value.
Structured JSON blobs are modelled by their `model_dump()` association lists
(the dumped pydantic models have a fixed key set; `extra = "allow"` overflow
fields are modelled as string-valued association lists).  The cache payload
dictionary is modelled as a `String × Int` association list: the only
operation the source performs on it is `results.get("count", 0)`.
-/

namespace GovInfo

/-! ### Python string surgery

`ingestion.py` and `client.py` extract the continuation token with
`next_page.split("offsetMark=")[1].split("&")[0]`, guarded by
`"offsetMark=" in next_page`.  `s.split(sep)[1]` is the segment of `s`
strictly between the first and the second occurrence of `sep` (or the whole
suffix after the first occurrence when there is no second one), and
`s.split(sep)[0]` is the part before the first occurrence (all of `s` when
`sep` does not occur).  We model those segments directly on `List Char`. -/

/-- `leadsWith sep s` is true when `sep` occurs at the very start of `s`. -/
def leadsWith : List Char → List Char → Bool
  | [], _ => true
  | _ :: _, [] => false
  | a :: as, b :: bs => a == b && leadsWith as bs

/-- The suffix of `s` strictly after the first occurrence of `sep`;
`none` when `sep` does not occur in `s` (this is exactly Python's
`sep in s` test combined with taking `s.split(sep)[1:]`). -/
def afterFirst (sep : List Char) : List Char → Option (List Char)
  | [] => none
  | c :: rest =>
    if leadsWith sep (c :: rest) then some ((c :: rest).drop sep.length)
    else afterFirst sep rest

/-- The part of `s` before the first occurrence of `sep` (all of `s` when
`sep` does not occur): Python's `s.split(sep)[0]`. -/
def beforeFirst (sep : List Char) : List Char → List Char
  | [] => []
  | c :: rest =>
    if leadsWith sep (c :: rest) then []
    else c :: beforeFirst sep rest

/-- Continuation-token extraction as written in the source
(`client.py` lines 148-151 and `ingestion.py` lines 239-242):
`if "offsetMark=" in np: np.split("offsetMark=")[1].split("&")[0]`,
and `None` (end of stream) otherwise. -/
def extract_offset_mark (np : String) : Option String :=
  match afterFirst "offsetMark=".data np.data with
  | none => none
  | some suf =>
    some (String.mk (beforeFirst "&".data (beforeFirst "offsetMark=".data suf)))

/-! ### Wire records (`src/govinfo_client/models/`) -/

/-- `models/collection.py` `PackageInfo`: a basic package record in a
collection listing page.  `lastModified` is a required datetime. -/
structure PackageInfo where
  package_id : String
  last_modified : Nat
  package_link : String
  deriving DecidableEq, Repr

/-- `models/collection.py` `CollectionPackages`: one page of the
`/collections/{code}/{date}` response. -/
structure CollectionPackages where
  count : Int
  message : Option String
  next_page : Option String
  previous_page : Option String
  packages : List PackageInfo
  deriving DecidableEq, Repr

/-- `models/package.py` `PackageDownload` (six optional links). -/
structure PackageDownload where
  txt_link : Option String
  xml_link : Option String
  pdf_link : Option String
  mods_link : Option String
  premis_link : Option String
  zip_link : Option String
  deriving DecidableEq, Repr

/-- `PackageDownload.model_dump()`: the fixed-key dictionary. -/
def PackageDownload.model_dump (d : PackageDownload) : List (String × Option String) :=
  [("txt_link", d.txt_link), ("xml_link", d.xml_link), ("pdf_link", d.pdf_link),
   ("mods_link", d.mods_link), ("premis_link", d.premis_link), ("zip_link", d.zip_link)]

/-- `models/package.py` `PackageRelated`; `extra = "allow"` overflow fields
are modelled as a string-valued association list. -/
structure PackageRelated where
  bill_status_link : Option String
  extra : List (String × Option String)
  deriving DecidableEq, Repr

/-- `PackageRelated.model_dump()`. -/
def PackageRelated.model_dump (r : PackageRelated) : List (String × Option String) :=
  ("bill_status_link", r.bill_status_link) :: r.extra

/-- `models/package.py` `ReferenceContent` (`extra = "allow"` overflow fields
modelled as a string-valued association list). -/
structure ReferenceContent where
  title : Option String
  label : Option String
  sections : Option (List String)
  pages : Option (List String)
  congress : Option String
  number : Option String
  extra : List (String × Option String)
  deriving DecidableEq, Repr

/-- `models/package.py` `PackageReference`.  The stored `references` column
holds `[r.model_dump() for r in summary.references]`; since `model_dump` of
this fixed-field record is injective we keep the typed record as the stored
blob value. -/
structure PackageReference where
  collection_code : String
  collection_name : String
  contents : List ReferenceContent
  deriving DecidableEq, Repr

/-- `models/package.py` `PackageSummary`: the full-detail package payload
from `/packages/{id}/summary`.  Fields the ingestion service never reads
(`other_identifier`-style extras allowed by pydantic) are omitted;
every field referenced by `ingestion.py` is present. -/
structure PackageSummary where
  title : String
  collection_code : String
  collection_name : String
  category : Option String
  date_issued : Option String
  details_link : String
  package_id : String
  download : Option PackageDownload
  related : Option PackageRelated
  last_modified : Option Nat
  branch : Option String
  pages : Option String
  bill_type : Option String
  congress : Option String
  session : Option String
  bill_number : Option String
  bill_version : Option String
  publisher : Option String
  references : Option (List PackageReference)
  deriving DecidableEq, Repr

/-- `models/granule.py` `GranuleDownload`. -/
structure GranuleDownload where
  txt_link : Option String
  xml_link : Option String
  pdf_link : Option String
  mods_link : Option String
  premis_link : Option String
  zip_link : Option String
  deriving DecidableEq, Repr

/-- `GranuleDownload.model_dump()`. -/
def GranuleDownload.model_dump (d : GranuleDownload) : List (String × Option String) :=
  [("txt_link", d.txt_link), ("xml_link", d.xml_link), ("pdf_link", d.pdf_link),
   ("mods_link", d.mods_link), ("premis_link", d.premis_link), ("zip_link", d.zip_link)]

/-- `models/granule.py` `GranuleInfo`: a basic granule record in a granule
listing page.  Note it carries no last-modified timestamp. -/
structure GranuleInfo where
  granule_id : String
  title : String
  granule_link : String
  granule_class : Option String
  deriving DecidableEq, Repr

/-- `models/granule.py` `GranuleList`: one page of the
`/packages/{id}/granules` response. -/
structure GranuleList where
  count : Int
  message : Option String
  next_page : Option String
  previous_page : Option String
  offset_mark : Option String
  granules : List GranuleInfo
  deriving DecidableEq, Repr

/-- `models/granule.py` `GranuleSummary`: the full-detail granule payload.
Every field referenced by `ingestion.py` is present. -/
structure GranuleSummary where
  title : String
  granule_id : String
  granule_class : Option String
  package_id : String
  collection_code : Option String
  collection_name : Option String
  category : Option String
  date_issued : Option String
  details_link : Option String
  download : Option GranuleDownload
  last_modified : Option Nat
  branch : Option String
  pages : Option String
  congress : Option String
  session : Option String
  deriving DecidableEq, Repr

/-! ### Database rows (`src/govinfo_client/db/models.py`)

Each SQLAlchemy table is modelled as a list of row structures.  Autoincrement
primary keys are assigned as `rows.length + 1` on insert (the engine never
deletes rows, so this is fresh).  `created_at` / `updated_at` column defaults
(`default=datetime.utcnow`) are applied at insert from the ambient `now`. -/

/-- `db/models.py` `Collection` row. -/
structure CollectionRow where
  id : Nat
  collection_code : String
  collection_name : String
  package_count : Int
  granule_count : Option Int
  created_at : Nat
  updated_at : Nat
  deriving DecidableEq, Repr

/-- `db/models.py` `Package` row.  The JSON columns hold the `model_dump`
association lists computed by the ingestion service (`references` keeps the
typed records, isomorphic to their dumps). -/
structure PackageRow where
  id : Nat
  package_id : String
  title : Option String
  collection_id : Nat
  collection_code : String
  collection_name : Option String
  category : Option String
  date_issued : Option String
  last_modified : Option Nat
  branch : Option String
  congress : Option String
  session : Option String
  download_links : Option (List (String × Option String))
  related_links : Option (List (String × Option String))
  references : Option (List PackageReference)
  metadata : Option (List (String × Option String))
  created_at : Nat
  updated_at : Nat
  deriving DecidableEq, Repr

/-- `db/models.py` `Granule` row. -/
structure GranuleRow where
  id : Nat
  granule_id : String
  title : Option String
  package_id : Nat
  package_identifier : String
  granule_class : Option String
  collection_code : Option String
  date_issued : Option String
  last_modified : Option Nat
  download_links : Option (List (String × Option String))
  metadata : Option (List (String × Option String))
  created_at : Nat
  updated_at : Nat
  deriving DecidableEq, Repr

/-- `db/models.py` `SearchCache` row.  The payload dictionary is modelled as
a `String × Int` association list (the source only ever reads its integer
`"count"` key). -/
structure SearchCacheRow where
  id : Nat
  query_hash : String
  query : String
  results : List (String × Int)
  result_count : Int
  created_at : Nat
  expires_at : Nat
  deriving DecidableEq, Repr

/-- The local store: one list of rows per table. -/
structure DB where
  collections : List CollectionRow
  packages : List PackageRow
  granules : List GranuleRow
  search_cache : List SearchCacheRow
  deriving DecidableEq, Repr

/-! ### Keyed-store primitives

`session.scalar(select(T).where(T.key == k))` returns the first row whose
natural key equals `k`; mutating the returned ORM object updates that row in
place (the natural keys carry `unique=True` constraints, so at most one row
matches in any reachable database).  We model the lookup as `List.find?` and
the in-place mutation as a keyed replacement. -/

/-- First row whose key equals `k` (models `session.scalar(select ... )`). -/
def findBy {α : Type} (key : α → String) (rows : List α) (k : String) : Option α :=
  rows.find? (fun r => key r == k)

/-- Replace the row(s) whose key equals `key r` by `r` (models in-place
mutation of the ORM object returned by the lookup; under the table's unique
constraint exactly one row is affected). -/
def replaceBy {α : Type} (key : α → String) (rows : List α) (r : α) : List α :=
  rows.map (fun x => if key x == key r then r else x)

/-! ### The reconciler (`DataIngestion._save_*`, `ingestion.py`)

Each save is split, as in the source, into the update applied to an existing
row (the body of the `if db_package:` branch) and the constructor call of the
`else` branch. -/

/-- Update branch of `_save_package_basic` (lines 131-133): refresh only
`last_modified` and `updated_at`. -/
def update_package_basic (now : Nat) (pkg : PackageInfo) (row : PackageRow) : PackageRow :=
  { row with last_modified := some pkg.last_modified, updated_at := now }

/-- Insert branch of `_save_package_basic` (lines 134-141): a new row with
only the minimal fields plus foreign keys; all other columns default. -/
def new_package_basic (now : Nat) (pkg : PackageInfo) (collection_id : Nat)
    (collection_code : String) (fresh_id : Nat) : PackageRow :=
  { id := fresh_id, package_id := pkg.package_id, title := none,
    collection_id := collection_id, collection_code := collection_code,
    collection_name := none, category := none, date_issued := none,
    last_modified := some pkg.last_modified, branch := none, congress := none,
    session := none, download_links := none, related_links := none,
    references := none, metadata := none, created_at := now, updated_at := now }

/-- `DataIngestion._save_package_basic`. -/
def save_package_basic (now : Nat) (pkg : PackageInfo) (collection_id : Nat)
    (collection_code : String) (rows : List PackageRow) : List PackageRow :=
  match findBy PackageRow.package_id rows pkg.package_id with
  | some db_package => replaceBy PackageRow.package_id rows (update_package_basic now pkg db_package)
  | none => rows ++ [new_package_basic now pkg collection_id collection_code (rows.length + 1)]

/-- The `metadata` blob computed by `_save_package_summary` (lines 173-179). -/
def package_metadata_blob (s : PackageSummary) : List (String × Option String) :=
  [("bill_type", s.bill_type), ("bill_number", s.bill_number),
   ("bill_version", s.bill_version), ("publisher", s.publisher), ("pages", s.pages)]

/-- The `references` blob computed by `_save_package_summary` (lines 168-172):
`[r.model_dump() for r in pkg_summary.references] if pkg_summary.references
else None`.  Python truthiness makes both `None` and the empty list falsy, so
a summary whose references list is empty stores NULL, not an empty blob. -/
def references_blob (s : PackageSummary) : Option (List PackageReference) :=
  match s.references with
  | some (r :: rs) => some (r :: rs)
  | _ => none

/-- Update branch of `_save_package_summary` (lines 182-186): every key of
`package_data` except `package_id` is written onto the existing row. -/
def update_package_summary (now : Nat) (s : PackageSummary) (collection_id : Nat)
    (row : PackageRow) : PackageRow :=
  { row with
    title := some s.title, collection_id := collection_id,
    collection_code := s.collection_code, collection_name := some s.collection_name,
    category := s.category, date_issued := s.date_issued,
    last_modified := s.last_modified, branch := s.branch, congress := s.congress,
    session := s.session,
    download_links := s.download.map PackageDownload.model_dump,
    related_links := s.related.map PackageRelated.model_dump,
    references := references_blob s,
    metadata := some (package_metadata_blob s),
    updated_at := now }

/-- Insert branch of `_save_package_summary` (lines 187-189):
`Package(**package_data)`. -/
def new_package_summary (now : Nat) (s : PackageSummary) (collection_id : Nat)
    (fresh_id : Nat) : PackageRow :=
  { id := fresh_id, package_id := s.package_id, title := some s.title,
    collection_id := collection_id, collection_code := s.collection_code,
    collection_name := some s.collection_name, category := s.category,
    date_issued := s.date_issued, last_modified := s.last_modified,
    branch := s.branch, congress := s.congress, session := s.session,
    download_links := s.download.map PackageDownload.model_dump,
    related_links := s.related.map PackageRelated.model_dump,
    references := references_blob s, metadata := some (package_metadata_blob s),
    created_at := now, updated_at := now }

/-- `DataIngestion._save_package_summary`. -/
def save_package_summary (now : Nat) (s : PackageSummary) (collection_id : Nat)
    (rows : List PackageRow) : List PackageRow :=
  match findBy PackageRow.package_id rows s.package_id with
  | some db_package => replaceBy PackageRow.package_id rows (update_package_summary now s collection_id db_package)
  | none => rows ++ [new_package_summary now s collection_id (rows.length + 1)]

/-- Update branch of `_save_granule_basic` (lines 254-256): the granule
listing record carries no last-modified timestamp, so the source refreshes
`title` and `updated_at`. -/
def update_granule_basic (now : Nat) (g : GranuleInfo) (row : GranuleRow) : GranuleRow :=
  { row with title := some g.title, updated_at := now }

/-- Insert branch of `_save_granule_basic` (lines 257-265). -/
def new_granule_basic (now : Nat) (g : GranuleInfo) (package_id : Nat)
    (package_identifier : String) (fresh_id : Nat) : GranuleRow :=
  { id := fresh_id, granule_id := g.granule_id, title := some g.title,
    package_id := package_id, package_identifier := package_identifier,
    granule_class := g.granule_class, collection_code := none, date_issued := none,
    last_modified := none, download_links := none, metadata := none,
    created_at := now, updated_at := now }

/-- `DataIngestion._save_granule_basic`. -/
def save_granule_basic (now : Nat) (g : GranuleInfo) (package_id : Nat)
    (package_identifier : String) (rows : List GranuleRow) : List GranuleRow :=
  match findBy GranuleRow.granule_id rows g.granule_id with
  | some db_granule => replaceBy GranuleRow.granule_id rows (update_granule_basic now g db_granule)
  | none => rows ++ [new_granule_basic now g package_id package_identifier (rows.length + 1)]

/-- The `metadata` blob computed by `_save_granule_summary` (lines 290-295). -/
def granule_metadata_blob (s : GranuleSummary) : List (String × Option String) :=
  [("branch", s.branch), ("pages", s.pages), ("congress", s.congress),
   ("session", s.session)]

/-- Update branch of `_save_granule_summary` (lines 298-302). -/
def update_granule_summary (now : Nat) (s : GranuleSummary) (package_id : Nat)
    (package_identifier : String) (row : GranuleRow) : GranuleRow :=
  { row with
    title := some s.title, package_id := package_id,
    package_identifier := package_identifier, granule_class := s.granule_class,
    collection_code := s.collection_code, date_issued := s.date_issued,
    last_modified := s.last_modified,
    download_links := s.download.map GranuleDownload.model_dump,
    metadata := some (granule_metadata_blob s), updated_at := now }

/-- Insert branch of `_save_granule_summary` (lines 303-305). -/
def new_granule_summary (now : Nat) (s : GranuleSummary) (package_id : Nat)
    (package_identifier : String) (fresh_id : Nat) : GranuleRow :=
  { id := fresh_id, granule_id := s.granule_id, title := some s.title,
    package_id := package_id, package_identifier := package_identifier,
    granule_class := s.granule_class, collection_code := s.collection_code,
    date_issued := s.date_issued, last_modified := s.last_modified,
    download_links := s.download.map GranuleDownload.model_dump,
    metadata := some (granule_metadata_blob s), created_at := now, updated_at := now }

/-- `DataIngestion._save_granule_summary`. -/
def save_granule_summary (now : Nat) (s : GranuleSummary) (package_id : Nat)
    (package_identifier : String) (rows : List GranuleRow) : List GranuleRow :=
  match findBy GranuleRow.granule_id rows s.granule_id with
  | some db_granule =>
    replaceBy GranuleRow.granule_id rows (update_granule_summary now s package_id package_identifier db_granule)
  | none => rows ++ [new_granule_summary now s package_id package_identifier (rows.length + 1)]

/-! ### The cursor walker (`GovInfoClient.iter_collection_packages`)

The remote transport is abstracted as `fetch : String → CollectionPackages`
(offset mark to page response, as produced by `get_collection_packages`);
the unbounded `while True:` generator is given explicit fuel. -/

/-- `client.py` `iter_collection_packages` (lines 114-151): yield the fetched
page, stop when `next_page` is absent or carries no `offsetMark=` token,
otherwise continue from the extracted mark. -/
def iter_collection_packages (fetch : String → CollectionPackages) :
    Nat → String → List CollectionPackages
  | 0, _ => []
  | fuel + 1, offset_mark =>
    let result := fetch offset_mark
    result ::
      (match result.next_page with
       | none => []
       | some np =>
         match extract_offset_mark np with
         | none => []
         | some om => iter_collection_packages fetch fuel om)

/-- The continuation mark a page leads to: `none` exactly when the walker
stops after yielding this page. -/
def continuation (page : CollectionPackages) : Option String :=
  page.next_page.bind extract_offset_mark

/-! ### The ingestion orchestrators (`DataIngestion.ingest_*`) -/

/-- Python's `if max_pages and page_num >= max_pages:` — `None` and `0` are
both falsy, so neither imposes a limit. -/
def max_pages_reached (max_pages : Option Nat) (page_num : Nat) : Bool :=
  match max_pages with
  | none => false
  | some m => decide (0 < m) && decide (m ≤ page_num)

/-- Result of one orchestrator run: the returned value (count or the raised
`ValueError` message), the resulting store, how many pages were consumed from
the remote source, and the identifiers for which a full-detail fetch was
attempted (one entry per attempt, in order, successful or not). -/
structure IngestResult where
  result : Except String Nat
  db : DB
  pages_fetched : Nat
  detail_attempts : List String
  deriving Repr

/-- The per-record body of the package loop (`ingestion.py` lines 101-113):
when `fetch_summaries` is set, attempt the detail fetch and fall back to the
basic save on failure; otherwise save the basic record directly. -/
def process_package_record (now : Nat) (get_summary : String → Except String PackageSummary)
    (fetch_summaries : Bool) (collection_id : Nat) (collection_code : String)
    (st : List PackageRow × List String) (pkg : PackageInfo) :
    List PackageRow × List String :=
  if fetch_summaries then
    match get_summary pkg.package_id with
    | .ok s => (save_package_summary now s collection_id st.1, st.2 ++ [pkg.package_id])
    | .error _ => (save_package_basic now pkg collection_id collection_code st.1, st.2 ++ [pkg.package_id])
  else
    (save_package_basic now pkg collection_id collection_code st.1, st.2)

/-- The page loop of `ingest_collection_packages` (lines 98-119): process all
records of a page, bump the running count and the page number, then check the
page ceiling; commits do not change the pure state. -/
def process_pages (now : Nat) (get_summary : String → Except String PackageSummary)
    (fetch_summaries : Bool) (collection_id : Nat) (collection_code : String)
    (max_pages : Option Nat) :
    List CollectionPackages → Nat → Nat → List PackageRow × List String →
    Nat × Nat × (List PackageRow × List String)
  | [], count, page_num, st => (count, page_num, st)
  | page :: rest, count, page_num, st =>
    let st := page.packages.foldl
      (process_package_record now get_summary fetch_summaries collection_id collection_code) st
    let count := count + page.packages.length
    let page_num := page_num + 1
    if max_pages_reached max_pages page_num then (count, page_num, st)
    else process_pages now get_summary fetch_summaries collection_id collection_code
      max_pages rest count page_num st

/-- `DataIngestion.ingest_collection_packages` (lines 65-122), with the pages
produced by the cursor walker passed as a list (the generator is only ever
advanced up to the page the loop consumes, so `pages_fetched` reports how
many pages of that sequence the run consumed). -/
def ingest_collection_packages (now : Nat) (pages : List CollectionPackages)
    (get_summary : String → Except String PackageSummary) (collection_code : String)
    (max_pages : Option Nat) (fetch_summaries : Bool) (db : DB) : IngestResult :=
  match findBy CollectionRow.collection_code db.collections collection_code with
  | none =>
    { result := .error ("Collection " ++ collection_code ++ " not found in database"),
      db := db, pages_fetched := 0, detail_attempts := [] }
  | some db_collection =>
    let out := process_pages now get_summary fetch_summaries db_collection.id
      collection_code max_pages pages 0 0 (db.packages, [])
    { result := .ok out.1, db := { db with packages := out.2.2.1 },
      pages_fetched := out.2.1, detail_attempts := out.2.2.2 }

/-- The per-record body of the granule loop (`ingestion.py` lines 218-229):
the detail fetch is always attempted; the basic save is only the fallback on
failure. -/
def process_granule_record (now : Nat)
    (get_granule_summary : String → String → Except String GranuleSummary)
    (package_row_id : Nat) (package_identifier : String)
    (st : List GranuleRow × List String) (g : GranuleInfo) :
    List GranuleRow × List String :=
  match get_granule_summary package_identifier g.granule_id with
  | .ok s =>
    (save_granule_summary now s package_row_id package_identifier st.1, st.2 ++ [g.granule_id])
  | .error _ =>
    (save_granule_basic now g package_row_id package_identifier st.1, st.2 ++ [g.granule_id])

/-- The `while True:` loop of `ingest_package_granules` (lines 215-246):
fetch a page, process each granule, bump the page counter, then in order
check the page ceiling, the absence of `next_page`, and the absence of an
`offsetMark` token (each of which ends the run).  The remote transport is
`get_page : String → GranuleList` and the loop carries explicit fuel. -/
def granules_loop (get_page : String → GranuleList)
    (get_granule_summary : String → String → Except String GranuleSummary)
    (now : Nat) (package_row_id : Nat) (package_identifier : String)
    (max_pages : Option Nat) :
    Nat → String → Nat → Nat → List GranuleRow × List String →
    Nat × Nat × (List GranuleRow × List String)
  | 0, _, count, page_num, st => (count, page_num, st)
  | fuel + 1, offset_mark, count, page_num, st =>
    let granules_data := get_page offset_mark
    let st := granules_data.granules.foldl
      (process_granule_record now get_granule_summary package_row_id package_identifier) st
    let count := count + granules_data.granules.length
    let page_num := page_num + 1
    if max_pages_reached max_pages page_num then (count, page_num, st)
    else
      match granules_data.next_page with
      | none => (count, page_num, st)
      | some np =>
        match extract_offset_mark np with
        | none => (count, page_num, st)
        | some om =>
          granules_loop get_page get_granule_summary now package_row_id
            package_identifier max_pages fuel om count page_num st

/-- `DataIngestion.ingest_package_granules` (lines 193-247). -/
def ingest_package_granules (get_page : String → GranuleList)
    (get_granule_summary : String → String → Except String GranuleSummary)
    (now : Nat) (package_id : String) (max_pages : Option Nat) (fuel : Nat)
    (db : DB) : IngestResult :=
  match findBy PackageRow.package_id db.packages package_id with
  | none =>
    { result := .error ("Package " ++ package_id ++ " not found in database"),
      db := db, pages_fetched := 0, detail_attempts := [] }
  | some db_package =>
    let out := granules_loop get_page get_granule_summary now db_package.id
      package_id max_pages fuel "*" 0 0 (db.granules, [])
    { result := .ok out.1, db := { db with granules := out.2.2.1 },
      pages_fetched := out.2.1, detail_attempts := out.2.2.2 }

/-! ### The search cache (`DataIngestion.cache_search_results`) -/

/-- Python's `results.get("count", 0)` on the payload dictionary. -/
def dict_get_count (results : List (String × Int)) : Int :=
  match results.find? (fun kv => kv.1 == "count") with
  | some kv => kv.2
  | none => 0

/-- `DataIngestion.cache_search_results` (lines 309-340).  `sha256_hexdigest`
abstracts `hashlib.sha256(query.encode()).hexdigest()`; `expires_at` is
`now + timedelta(hours=ttl_hours)`, i.e. `now + ttl_hours * 3600` seconds. -/
def cache_search_results (sha256_hexdigest : String → String) (now : Nat)
    (query : String) (results : List (String × Int)) (ttl_hours : Nat)
    (rows : List SearchCacheRow) : List SearchCacheRow :=
  let query_hash := sha256_hexdigest query
  let expires_at := now + ttl_hours * 3600
  match findBy SearchCacheRow.query_hash rows query_hash with
  | some cache_entry =>
    replaceBy SearchCacheRow.query_hash rows
      ({ cache_entry with
         results := results, result_count := dict_get_count results,
         created_at := now, expires_at := expires_at })
  | none =>
    rows ++ [{ id := rows.length + 1, query_hash := query_hash, query := query,
               results := results, result_count := dict_get_count results,
               created_at := now, expires_at := expires_at }]

/-- Modelled from the spec: the repository contains no cache reader (spec
§4.5 notes `get(query)` is not part of the minimal observed contract), and
spec §3 defines the missing check: "an entry is logically absent once the
current time exceeds its expiry timestamp". -/
def is_expired (t : Nat) (e : SearchCacheRow) : Bool :=
  decide (e.expires_at < t)

/-- Total number of records carried by a list of pages. -/
def total_records (pages : List CollectionPackages) : Nat :=
  (pages.map (fun p => p.packages.length)).sum

/-- The package identifiers of all records of all pages, in processing
order. -/
def record_ids (pages : List CollectionPackages) : List String :=
  pages.foldr (fun p acc => p.packages.map PackageInfo.package_id ++ acc) []

/-- Number of rows whose key equals `k` (for uniqueness statements). -/
def countBy {α : Type} (key : α → String) (rows : List α) (k : String) : Nat :=
  (rows.filter (fun r => key r == k)).length

/-- The common upsert shape shared by all four `_save_*` functions and the
cache writer: look up by natural key, update the found row in place, or
append a freshly constructed row. -/
def upsertBy {α : Type} (key : α → String) (rows : List α) (k : String)
    (upd : α → α) (new : α) : List α :=
  match findBy key rows k with
  | some old => replaceBy key rows (upd old)
  | none => rows ++ [new]

/-- The rows-only view of `process_package_record` (the attempt log does not
influence the stored rows). -/
def process_package_rows (now : Nat) (get_summary : String → Except String PackageSummary)
    (fetch_summaries : Bool) (collection_id : Nat) (collection_code : String)
    (rows : List PackageRow) (pkg : PackageInfo) : List PackageRow :=
  if fetch_summaries then
    match get_summary pkg.package_id with
    | .ok s => save_package_summary now s collection_id rows
    | .error _ => save_package_basic now pkg collection_id collection_code rows
  else save_package_basic now pkg collection_id collection_code rows

/-- The in-place update that processing record `pkg` applies to an existing
row (used to state that reprocessing an already reconciled row is a no-op). -/
def process_package_touch (now : Nat) (get_summary : String → Except String PackageSummary)
    (fetch_summaries : Bool) (collection_id : Nat) (pkg : PackageInfo)
    (row : PackageRow) : PackageRow :=
  if fetch_summaries then
    match get_summary pkg.package_id with
    | .ok s => update_package_summary now s collection_id row
    | .error _ => update_package_basic now pkg row
  else update_package_basic now pkg row

/-- The rows-only view of `process_granule_record` (the attempt log does not
influence the stored rows). -/
def process_granule_rows (now : Nat)
    (get_granule_summary : String → String → Except String GranuleSummary)
    (package_row_id : Nat) (package_identifier : String)
    (rows : List GranuleRow) (g : GranuleInfo) : List GranuleRow :=
  match get_granule_summary package_identifier g.granule_id with
  | .ok s => save_granule_summary now s package_row_id package_identifier rows
  | .error _ => save_granule_basic now g package_row_id package_identifier rows

/-- Fold of the rows-only record step over one page's records. -/
def foldRecords (now : Nat) (get_summary : String → Except String PackageSummary)
    (fetch_summaries : Bool) (collection_id : Nat) (collection_code : String)
    (records : List PackageInfo) (rows : List PackageRow) : List PackageRow :=
  records.foldl (process_package_rows now get_summary fetch_summaries collection_id collection_code) rows

/-- Fold of the rows-only record step over a list of pages. -/
def foldPages (now : Nat) (get_summary : String → Except String PackageSummary)
    (fetch_summaries : Bool) (collection_id : Nat) (collection_code : String)
    (pages : List CollectionPackages) (rows : List PackageRow) : List PackageRow :=
  pages.foldl
    (fun r page => foldRecords now get_summary fetch_summaries collection_id collection_code page.packages r)
    rows

/-! ### Concrete sample data

Named inputs used by the counterexample and the witness theorems. -/

/-- A concrete basic package record. -/
def sample_pkg (i : String) (lm : Nat) : PackageInfo :=
  { package_id := i, last_modified := lm, package_link := "https://x/pkg" }

/-- A concrete full package summary for identifier `i` with title `t`. -/
def sample_summary (i t : String) : PackageSummary :=
  { title := t, collection_code := "BILLS", collection_name := "Congressional Bills",
    category := some "Bills", date_issued := some "2024-01-03", details_link := "https://x/d",
    package_id := i,
    download := some { txt_link := none, xml_link := some "https://x/xml",
                       pdf_link := none, mods_link := none, premis_link := none,
                       zip_link := none },
    related := none, last_modified := some 7, branch := some "legislative",
    pages := none, bill_type := some "hr", congress := some "118", session := some "2",
    bill_number := some "100", bill_version := none, publisher := none,
    references := none }

/-- A concrete basic granule record. -/
def sample_gi (i t : String) : GranuleInfo :=
  { granule_id := i, title := t, granule_link := "https://x/g", granule_class := some "CRECB" }

/-- A concrete full granule summary for identifier `i` with title `t`. -/
def sample_gsummary (i t : String) : GranuleSummary :=
  { title := t, granule_id := i, granule_class := some "CRECB", package_id := "PKG1",
    collection_code := some "CREC", collection_name := none, category := none,
    date_issued := some "2024-01-03", details_link := none,
    download := some { txt_link := some "https://x/txt", xml_link := none,
                       pdf_link := none, mods_link := none, premis_link := none,
                       zip_link := none },
    last_modified := some 9, branch := none, pages := none, congress := none,
    session := none }

/-- A concrete stored collection row. -/
def sample_coll : CollectionRow :=
  { id := 1, collection_code := "BILLS", collection_name := "Congressional Bills",
    package_count := 10, granule_count := none, created_at := 0, updated_at := 0 }

/-- A concrete stored package row holding rich detail fields. -/
def sample_prow : PackageRow :=
  { id := 1, package_id := "PKG1", title := some "Old title", collection_id := 1,
    collection_code := "BILLS", collection_name := some "Congressional Bills",
    category := some "Bills", date_issued := some "2023-12-01", last_modified := some 5,
    branch := some "legislative", congress := some "117", session := some "1",
    download_links := some [("pdf_link", some "https://x/old.pdf")],
    related_links := none, references := none,
    metadata := some [("publisher", some "GPO")], created_at := 2, updated_at := 3 }

/-- A concrete stored granule row holding rich detail fields. -/
def sample_grow : GranuleRow :=
  { id := 1, granule_id := "G1", title := some "Old granule title", package_id := 1,
    package_identifier := "PKG1", granule_class := some "CRECB",
    collection_code := some "CREC", date_issued := some "2023-12-01",
    last_modified := some 5,
    download_links := some [("pdf_link", some "https://x/old.pdf")],
    metadata := some [("branch", some "legislative")], created_at := 2, updated_at := 3 }

/-- Three concrete walker pages: the first two carry an `offsetMark`
continuation, the third carries a next-page reference without one. -/
def sample_page1 : CollectionPackages :=
  { count := 3, message := none,
    next_page := some "https://api.x/collections/BILLS?offsetMark=M2&pageSize=2",
    previous_page := none, packages := [sample_pkg "P1" 11, sample_pkg "P2" 12] }

/-- Second walker page (continuation `M3`). -/
def sample_page2 : CollectionPackages :=
  { count := 3, message := none,
    next_page := some "https://api.x/collections/BILLS?offsetMark=M3&pageSize=2",
    previous_page := none, packages := [sample_pkg "P3" 13] }

/-- Third walker page: its reference lacks the `offsetMark` parameter. -/
def sample_page3 : CollectionPackages :=
  { count := 3, message := none,
    next_page := some "https://api.x/collections/BILLS?pageSize=2",
    previous_page := none, packages := [] }

/-- A concrete remote transport serving the three sample pages by mark. -/
def sample_fetch : String → CollectionPackages := fun offset_mark =>
  if offset_mark == "*" then sample_page1
  else if offset_mark == "M2" then sample_page2
  else sample_page3

/-- A concrete detail-fetch collaborator that fails exactly on `P2`. -/
def sample_get_summary : String → Except String PackageSummary := fun i =>
  if i == "P2" then .error "HTTP 500" else .ok (sample_summary i ("Title " ++ i))

/-- A concrete single page of three fresh package records (no
continuation). -/
def sample_page_c3 : CollectionPackages :=
  { count := 3, message := none, next_page := none, previous_page := none,
    packages := [sample_pkg "P1" 11, sample_pkg "P2" 12, sample_pkg "P3" 13] }

/-- A concrete one-page granule listing with two granules and no
continuation. -/
def sample_glist : GranuleList :=
  { count := 2, message := none, next_page := none, previous_page := none,
    offset_mark := some "*", granules := [sample_gi "G1" "Sec 1", sample_gi "G2" "Sec 2"] }

/-- A concrete granule-page transport serving `sample_glist` for every
mark. -/
def sample_get_page : String → GranuleList := fun _ => sample_glist

/-- A concrete granule detail-fetch collaborator that fails exactly on
`G2`. -/
def sample_get_gsummary : String → String → Except String GranuleSummary := fun _ g =>
  if g == "G2" then .error "HTTP 500" else .ok (sample_gsummary g ("Full " ++ g))

/-- A concrete store holding one collection and one rich package row. -/
def sample_db : DB :=
  { collections := [sample_coll], packages := [sample_prow], granules := [sample_grow],
    search_cache := [] }

/-! ### Generic lemmas about the keyed-store primitives -/

section KeyedStore

variable {α : Type} (key : α → String)

theorem findBy_nil (k : String) : findBy key [] k = none := rfl

theorem findBy_cons_pos {x : α} {k : String} (rows : List α) (h : key x = k) :
    findBy key (x :: rows) k = some x :=
  List.find?_cons_of_pos _ (by simp [h])

theorem findBy_cons_neg {x : α} {k : String} (rows : List α) (h : ¬ key x = k) :
    findBy key (x :: rows) k = findBy key rows k :=
  List.find?_cons_of_neg _ (by simp [h])

theorem findBy_eq_none_iff {rows : List α} {k : String} :
    findBy key rows k = none ↔ ∀ x ∈ rows, key x ≠ k := by
  simp [findBy, List.find?_eq_none]

theorem findBy_mem {rows : List α} {k : String} {x : α}
    (h : findBy key rows k = some x) : x ∈ rows ∧ key x = k := by
  have h1 := List.mem_of_find?_eq_some h
  have h2 := List.find?_some h
  exact ⟨h1, by simpa using h2⟩

theorem replaceBy_cons_pos {x r : α} (rows : List α) (h : key x = key r) :
    replaceBy key (x :: rows) r = r :: replaceBy key rows r := by
  simp [replaceBy, h]

theorem replaceBy_cons_neg {x r : α} (rows : List α) (h : ¬ key x = key r) :
    replaceBy key (x :: rows) r = x :: replaceBy key rows r := by
  simp [replaceBy, h]

theorem length_replaceBy (rows : List α) (r : α) :
    (replaceBy key rows r).length = rows.length := by
  simp [replaceBy]

theorem map_key_replaceBy (rows : List α) (r : α) :
    (replaceBy key rows r).map key = rows.map key := by
  induction rows with
  | nil => rfl
  | cons x rows ih =>
    by_cases h : key x = key r
    · rw [replaceBy_cons_pos key rows h, List.map_cons, List.map_cons, ih, h]
    · rw [replaceBy_cons_neg key rows h, List.map_cons, List.map_cons, ih]

theorem findBy_replaceBy_self {rows : List α} {k : String} {old : α} (r : α)
    (h : findBy key rows k = some old) (hk : key r = k) :
    findBy key (replaceBy key rows r) k = some r := by
  induction rows with
  | nil => simp [findBy] at h
  | cons x rows ih =>
    by_cases hx : key x = k
    · rw [replaceBy_cons_pos key rows (by rw [hx, hk]), findBy_cons_pos _ _ hk]
    · rw [findBy_cons_neg key rows hx] at h
      rw [replaceBy_cons_neg key rows (by rw [hk]; exact hx),
        findBy_cons_neg key _ hx]
      exact ih h

theorem findBy_replaceBy_ne {rows : List α} {q : String} (r : α) (hq : q ≠ key r) :
    findBy key (replaceBy key rows r) q = findBy key rows q := by
  induction rows with
  | nil => rfl
  | cons x rows ih =>
    by_cases hx : key x = key r
    · rw [replaceBy_cons_pos key rows hx,
        findBy_cons_neg key _ (fun h => hq h.symm),
        findBy_cons_neg key rows (by rw [hx]; exact fun h => hq h.symm)]
      exact ih
    · rw [replaceBy_cons_neg key rows hx]
      by_cases h2 : key x = q
      · rw [findBy_cons_pos key _ h2, findBy_cons_pos key rows h2]
      · rw [findBy_cons_neg key _ h2, findBy_cons_neg key rows h2]
        exact ih

theorem replaceBy_eq_self {rows : List α} {r : α}
    (h : ∀ x ∈ rows, key x = key r → x = r) : replaceBy key rows r = rows := by
  induction rows with
  | nil => rfl
  | cons x rows ih =>
    have tail : replaceBy key rows r = rows :=
      ih (fun y hy => h y (List.mem_cons_of_mem _ hy))
    by_cases hx : key x = key r
    · rw [replaceBy_cons_pos key rows hx, tail,
        h x (List.mem_cons_self _ _) hx]
    · rw [replaceBy_cons_neg key rows hx, tail]

theorem findBy_all_eq {rows : List α} {k : String} {ρ : α}
    (hn : (rows.map key).Nodup) (hf : findBy key rows k = some ρ) :
    ∀ x ∈ rows, key x = k → x = ρ := by
  induction rows with
  | nil => simp
  | cons x rows ih =>
    simp only [List.map_cons, List.nodup_cons] at hn
    by_cases hx : key x = k
    · rw [findBy_cons_pos key rows hx] at hf
      obtain rfl : x = ρ := by injection hf
      intro y hy hyk
      rcases List.mem_cons.mp hy with rfl | hy2
      · rfl
      · exfalso
        refine hn.1 ?_
        have hkey : key y = key x := by rw [hyk, hx]
        rw [← hkey]
        exact List.mem_map_of_mem key hy2
    · rw [findBy_cons_neg key rows hx] at hf
      intro y hy hyk
      rcases List.mem_cons.mp hy with rfl | hy2
      · exact absurd hyk hx
      · exact ih hn.2 hf y hy2 hyk

theorem findBy_append_some {rows rows2 : List α} {k : String} {x : α}
    (h : findBy key rows k = some x) :
    findBy key (rows ++ rows2) k = some x := by
  induction rows with
  | nil => simp [findBy] at h
  | cons y rows ih =>
    by_cases hy : key y = k
    · rw [findBy_cons_pos key rows hy] at h
      rw [List.cons_append, findBy_cons_pos key _ hy]
      exact h
    · rw [findBy_cons_neg key rows hy] at h
      rw [List.cons_append, findBy_cons_neg key _ hy]
      exact ih h

theorem findBy_append_none {rows : List α} {k : String}
    (h : findBy key rows k = none) (rows2 : List α) :
    findBy key (rows ++ rows2) k = findBy key rows2 k := by
  induction rows with
  | nil => rfl
  | cons y rows ih =>
    by_cases hy : key y = k
    · rw [findBy_cons_pos key rows hy] at h
      exact absurd h (by simp)
    · rw [findBy_cons_neg key rows hy] at h
      rw [List.cons_append, findBy_cons_neg key _ hy]
      exact ih h

theorem findBy_singleton_self {r : α} {k : String} (hk : key r = k) :
    findBy key [r] k = some r :=
  findBy_cons_pos key [] hk

theorem findBy_singleton_ne {r : α} {k : String} (hk : key r ≠ k) :
    findBy key [r] k = none :=
  findBy_cons_neg key [] hk

theorem countBy_cons_pos {x : α} {k : String} (rows : List α) (h : key x = k) :
    countBy key (x :: rows) k = countBy key rows k + 1 := by
  simp [countBy, List.filter_cons, h]

theorem countBy_cons_neg {x : α} {k : String} (rows : List α) (h : ¬ key x = k) :
    countBy key (x :: rows) k = countBy key rows k := by
  simp [countBy, List.filter_cons, h]

theorem countBy_pos_of_findBy_some {rows : List α} {k : String} {x : α}
    (h : findBy key rows k = some x) : 1 ≤ countBy key rows k := by
  induction rows with
  | nil => simp [findBy] at h
  | cons y rows ih =>
    by_cases hy : key y = k
    · rw [countBy_cons_pos key rows hy]
      omega
    · rw [findBy_cons_neg key rows hy] at h
      rw [countBy_cons_neg key rows hy]
      exact ih h

theorem countBy_eq_zero_of_findBy_none {rows : List α} {k : String}
    (h : findBy key rows k = none) : countBy key rows k = 0 := by
  induction rows with
  | nil => rfl
  | cons y rows ih =>
    by_cases hy : key y = k
    · rw [findBy_cons_pos key rows hy] at h
      exact absurd h (by simp)
    · rw [findBy_cons_neg key rows hy] at h
      rw [countBy_cons_neg key rows hy]
      exact ih h

theorem countBy_replaceBy {k : String} (rows : List α) (r : α) (hk : key r = k) :
    countBy key (replaceBy key rows r) k = countBy key rows k := by
  induction rows with
  | nil => rfl
  | cons x rows ih =>
    by_cases hx : key x = key r
    · rw [replaceBy_cons_pos key rows hx,
        countBy_cons_pos key _ hk, countBy_cons_pos key rows (by rw [hx, hk]), ih]
    · by_cases hxk : key x = k
      · exact absurd (by rw [hxk, hk]) hx
      · rw [replaceBy_cons_neg key rows hx,
          countBy_cons_neg key _ hxk, countBy_cons_neg key rows hxk, ih]

theorem countBy_append (rows rows2 : List α) (k : String) :
    countBy key (rows ++ rows2) k = countBy key rows k + countBy key rows2 k := by
  simp [countBy, List.filter_append]

end KeyedStore

/-! ### Lemmas about the common upsert shape -/

section Upsert

variable {α : Type} (key : α → String)

theorem upsertBy_found {rows : List α} {k : String} {old : α}
    (upd : α → α) (new : α) (h : findBy key rows k = some old) :
    upsertBy key rows k upd new = replaceBy key rows (upd old) := by
  unfold upsertBy
  rw [h]

theorem upsertBy_not_found {rows : List α} {k : String}
    (upd : α → α) (new : α) (h : findBy key rows k = none) :
    upsertBy key rows k upd new = rows ++ [new] := by
  unfold upsertBy
  rw [h]

theorem findBy_upsertBy_found {rows : List α} {k : String} {old : α}
    {upd : α → α} (new : α) (hupd : ∀ x, key (upd x) = key x)
    (h : findBy key rows k = some old) :
    findBy key (upsertBy key rows k upd new) k = some (upd old) := by
  rw [upsertBy_found key upd new h]
  exact findBy_replaceBy_self key _ h (by rw [hupd]; exact (findBy_mem key h).2)

theorem findBy_upsertBy_not_found {rows : List α} {k : String}
    (upd : α → α) {new : α} (hnew : key new = k)
    (h : findBy key rows k = none) :
    findBy key (upsertBy key rows k upd new) k = some new := by
  rw [upsertBy_not_found key upd new h, findBy_append_none key h,
    findBy_singleton_self key hnew]

theorem findBy_upsertBy_ne {rows : List α} {k q : String}
    {upd : α → α} {new : α} (hupd : ∀ x, key (upd x) = key x)
    (hnew : key new = k) (hq : q ≠ k) :
    findBy key (upsertBy key rows k upd new) q = findBy key rows q := by
  unfold upsertBy
  cases h : findBy key rows k with
  | some old =>
    refine findBy_replaceBy_ne key _ ?_
    rw [hupd]
    rw [(findBy_mem key h).2]
    exact hq
  | none =>
    cases h2 : findBy key rows q with
    | some x => exact findBy_append_some key h2
    | none =>
      rw [findBy_append_none key h2, findBy_singleton_ne key (by rw [hnew]; exact fun hh => hq hh.symm)]

theorem length_upsertBy_found {rows : List α} {k : String} {old : α}
    (upd : α → α) (new : α) (h : findBy key rows k = some old) :
    (upsertBy key rows k upd new).length = rows.length := by
  rw [upsertBy_found key upd new h, length_replaceBy]

theorem length_upsertBy_not_found {rows : List α} {k : String}
    (upd : α → α) (new : α) (h : findBy key rows k = none) :
    (upsertBy key rows k upd new).length = rows.length + 1 := by
  rw [upsertBy_not_found key upd new h, List.length_append, List.length_singleton]

theorem map_key_upsertBy_found {rows : List α} {k : String} {old : α}
    (upd : α → α) (new : α) (h : findBy key rows k = some old) :
    (upsertBy key rows k upd new).map key = rows.map key := by
  rw [upsertBy_found key upd new h, map_key_replaceBy]

theorem map_key_upsertBy_not_found {rows : List α} {k : String}
    (upd : α → α) {new : α} (hnew : key new = k)
    (h : findBy key rows k = none) :
    (upsertBy key rows k upd new).map key = rows.map key ++ [k] := by
  rw [upsertBy_not_found key upd new h, List.map_append, List.map_singleton, hnew]

theorem nodup_upsertBy {rows : List α} {k : String}
    (upd : α → α) {new : α} (_hupd : ∀ x, key (upd x) = key x)
    (hnew : key new = k) (hn : (rows.map key).Nodup) :
    ((upsertBy key rows k upd new).map key).Nodup := by
  cases h : findBy key rows k with
  | some old => rw [map_key_upsertBy_found key upd new h]; exact hn
  | none =>
    rw [map_key_upsertBy_not_found key upd hnew h]
    have hk : k ∉ rows.map key := by
      intro hmem
      obtain ⟨x, hx, hxk⟩ := List.mem_map.mp hmem
      exact (findBy_eq_none_iff key).mp h x hx hxk
    simp [List.nodup_append, hn, hk]

theorem upsertBy_fix {rows : List α} {k : String} {ρ : α}
    (upd : α → α) (new : α) (hn : (rows.map key).Nodup)
    (h : findBy key rows k = some ρ) (hfix : upd ρ = ρ) :
    upsertBy key rows k upd new = rows := by
  rw [upsertBy_found key upd new h, hfix]
  exact replaceBy_eq_self key (fun x hx hxk =>
    findBy_all_eq key hn h x hx (by rw [hxk]; exact (findBy_mem key h).2))

theorem countBy_upsertBy {rows : List α} {k : String}
    (upd : α → α) {new : α} (hupd : ∀ x, key (upd x) = key x)
    (hnew : key new = k) (hc : countBy key rows k ≤ 1) :
    countBy key (upsertBy key rows k upd new) k = 1 := by
  cases h : findBy key rows k with
  | some old =>
    rw [upsertBy_found key upd new h,
      countBy_replaceBy key rows (upd old) (by rw [hupd]; exact (findBy_mem key h).2)]
    have := countBy_pos_of_findBy_some key h
    omega
  | none =>
    rw [upsertBy_not_found key upd new h, countBy_append,
      countBy_eq_zero_of_findBy_none key h, countBy_cons_pos key [] hnew]
    rfl

end Upsert

/-! ### Each save function is an instance of the upsert shape -/

theorem save_package_basic_eq (now : Nat) (pkg : PackageInfo) (cid : Nat)
    (cc : String) (rows : List PackageRow) :
    save_package_basic now pkg cid cc rows =
      upsertBy PackageRow.package_id rows pkg.package_id
        (update_package_basic now pkg) (new_package_basic now pkg cid cc (rows.length + 1)) := by
  unfold save_package_basic upsertBy
  cases findBy PackageRow.package_id rows pkg.package_id <;> rfl

theorem save_package_summary_eq (now : Nat) (s : PackageSummary) (cid : Nat)
    (rows : List PackageRow) :
    save_package_summary now s cid rows =
      upsertBy PackageRow.package_id rows s.package_id
        (update_package_summary now s cid) (new_package_summary now s cid (rows.length + 1)) := by
  unfold save_package_summary upsertBy
  cases findBy PackageRow.package_id rows s.package_id <;> rfl

theorem save_granule_basic_eq (now : Nat) (g : GranuleInfo) (pid : Nat)
    (pident : String) (rows : List GranuleRow) :
    save_granule_basic now g pid pident rows =
      upsertBy GranuleRow.granule_id rows g.granule_id
        (update_granule_basic now g) (new_granule_basic now g pid pident (rows.length + 1)) := by
  unfold save_granule_basic upsertBy
  cases findBy GranuleRow.granule_id rows g.granule_id <;> rfl

theorem save_granule_summary_eq (now : Nat) (s : GranuleSummary) (pid : Nat)
    (pident : String) (rows : List GranuleRow) :
    save_granule_summary now s pid pident rows =
      upsertBy GranuleRow.granule_id rows s.granule_id
        (update_granule_summary now s pid pident)
        (new_granule_summary now s pid pident (rows.length + 1)) := by
  unfold save_granule_summary upsertBy
  cases findBy GranuleRow.granule_id rows s.granule_id <;> rfl

theorem cache_search_results_eq (h : String → String) (now : Nat) (q : String)
    (results : List (String × Int)) (ttl : Nat) (rows : List SearchCacheRow) :
    cache_search_results h now q results ttl rows =
      upsertBy SearchCacheRow.query_hash rows (h q)
        (fun e => { e with results := results, result_count := dict_get_count results,
                           created_at := now, expires_at := now + ttl * 3600 })
        { id := rows.length + 1, query_hash := h q, query := q, results := results,
          result_count := dict_get_count results, created_at := now,
          expires_at := now + ttl * 3600 } := by
  unfold cache_search_results upsertBy
  cases hf : findBy SearchCacheRow.query_hash rows (h q) <;> simp [hf]

theorem key_update_package_basic (now : Nat) (pkg : PackageInfo) (x : PackageRow) :
    (update_package_basic now pkg x).package_id = x.package_id := rfl

theorem key_update_package_summary (now : Nat) (s : PackageSummary) (cid : Nat)
    (x : PackageRow) :
    (update_package_summary now s cid x).package_id = x.package_id := rfl

theorem key_update_granule_basic (now : Nat) (g : GranuleInfo) (x : GranuleRow) :
    (update_granule_basic now g x).granule_id = x.granule_id := rfl

theorem key_update_granule_summary (now : Nat) (s : GranuleSummary) (pid : Nat)
    (pident : String) (x : GranuleRow) :
    (update_granule_summary now s pid pident x).granule_id = x.granule_id := rfl

/-! ### Claim C1 — effects of the basic merge on an existing row -/

/-- **C1, counterexample.**  The claim states that for a Granule record
ingested via the basic merge onto an existing row, the stored title is left
unchanged (only last-modified and update time being refreshed).  On the
concrete store holding `sample_grow` (title "Old granule title"), the basic
merge of a listing record titled "New title" overwrites the stored title,
and leaves the stored last-modified timestamp untouched. -/
theorem C1_counterexample_granule_title_overwritten :
    (findBy GranuleRow.granule_id
        (save_granule_basic 100 (sample_gi "G1" "New title") 1 "PKG1" [sample_grow])
        "G1").map GranuleRow.title = some (some "New title") ∧
    (findBy GranuleRow.granule_id
        (save_granule_basic 100 (sample_gi "G1" "New title") 1 "PKG1" [sample_grow])
        "G1").map GranuleRow.last_modified = some (some 5) ∧
    sample_grow.title = some "Old granule title" ∧
    sample_grow.granule_id = "G1" := by
  decide

/-- **C1 (amended).**  Basic merge onto an existing row refreshes, for a
Package, exactly the last-modified timestamp and the update time, and for a
Granule (whose listing record carries no last-modified timestamp), exactly
the title and the update time; every other stored field of the row is left
unchanged, no row is added or removed, and rows with any other identifier
are untouched. -/
theorem C1_basic_merge_refresh :
    (∀ (now : Nat) (pkg : PackageInfo) (cid : Nat) (cc : String)
        (rows : List PackageRow) (old : PackageRow),
      findBy PackageRow.package_id rows pkg.package_id = some old →
      findBy PackageRow.package_id (save_package_basic now pkg cid cc rows)
          pkg.package_id =
        some { old with last_modified := some pkg.last_modified, updated_at := now } ∧
      (save_package_basic now pkg cid cc rows).length = rows.length ∧
      ∀ q, q ≠ pkg.package_id →
        findBy PackageRow.package_id (save_package_basic now pkg cid cc rows) q =
          findBy PackageRow.package_id rows q) ∧
    (∀ (now : Nat) (g : GranuleInfo) (pid : Nat) (pident : String)
        (rows : List GranuleRow) (old : GranuleRow),
      findBy GranuleRow.granule_id rows g.granule_id = some old →
      findBy GranuleRow.granule_id (save_granule_basic now g pid pident rows)
          g.granule_id =
        some { old with title := some g.title, updated_at := now } ∧
      (save_granule_basic now g pid pident rows).length = rows.length ∧
      ∀ q, q ≠ g.granule_id →
        findBy GranuleRow.granule_id (save_granule_basic now g pid pident rows) q =
          findBy GranuleRow.granule_id rows q) := by
  constructor
  · intro now pkg cid cc rows old hfind
    rw [save_package_basic_eq]
    refine ⟨?_, ?_, ?_⟩
    · exact findBy_upsertBy_found _ _ (key_update_package_basic now pkg) hfind
    · exact length_upsertBy_found _ _ _ hfind
    · intro q hq
      exact findBy_upsertBy_ne _ (key_update_package_basic now pkg) rfl hq
  · intro now g pid pident rows old hfind
    rw [save_granule_basic_eq]
    refine ⟨?_, ?_, ?_⟩
    · exact findBy_upsertBy_found _ _ (key_update_granule_basic now g) hfind
    · exact length_upsertBy_found _ _ _ hfind
    · intro q hq
      exact findBy_upsertBy_ne _ (key_update_granule_basic now g) rfl hq

/-- **C1, witness.**  The amended theorem applied to the concrete store
`[sample_prow]` and the basic record `sample_pkg "PKG1" 42`. -/
theorem C1_basic_merge_refresh_witness :
    findBy PackageRow.package_id [sample_prow] (sample_pkg "PKG1" 42).package_id =
      some sample_prow ∧
    (findBy PackageRow.package_id
        (save_package_basic 100 (sample_pkg "PKG1" 42) 1 "BILLS" [sample_prow])
        (sample_pkg "PKG1" 42).package_id =
      some { sample_prow with last_modified := some 42, updated_at := 100 } ∧
    (save_package_basic 100 (sample_pkg "PKG1" 42) 1 "BILLS" [sample_prow]).length = 1 ∧
    ∀ q, q ≠ (sample_pkg "PKG1" 42).package_id →
      findBy PackageRow.package_id
          (save_package_basic 100 (sample_pkg "PKG1" 42) 1 "BILLS" [sample_prow]) q =
        findBy PackageRow.package_id [sample_prow] q) :=
  ⟨by decide,
   C1_basic_merge_refresh.1 100 (sample_pkg "PKG1" 42) 1 "BILLS" [sample_prow]
     sample_prow (by decide)⟩

/-! ### Claim C2 — effects of the full merge on an existing row -/

/-- **C2.**  Full-detail merge onto an existing Package or Granule row
overwrites every mapped scalar field with the new record's value, replaces
every structured blob wholesale by the blob computed from the new record
alone (so nothing of the prior blob survives; for the references blob the
computed value is NULL when the new record's list is absent or empty, per
Python truthiness), never overwrites the natural identifier (the stored
`package_id` / `granule_id` remains the row's own), and adds or removes no
row. -/
theorem C2_full_merge_overwrites :
    (∀ (now : Nat) (s : PackageSummary) (cid : Nat)
        (rows : List PackageRow) (old : PackageRow),
      findBy PackageRow.package_id rows s.package_id = some old →
      findBy PackageRow.package_id (save_package_summary now s cid rows)
          s.package_id =
        some { id := old.id, package_id := old.package_id, title := some s.title,
               collection_id := cid, collection_code := s.collection_code,
               collection_name := some s.collection_name, category := s.category,
               date_issued := s.date_issued, last_modified := s.last_modified,
               branch := s.branch, congress := s.congress, session := s.session,
               download_links := s.download.map PackageDownload.model_dump,
               related_links := s.related.map PackageRelated.model_dump,
               references := references_blob s,
               metadata := some (package_metadata_blob s),
               created_at := old.created_at, updated_at := now } ∧
      (save_package_summary now s cid rows).length = rows.length) ∧
    (∀ (now : Nat) (s : GranuleSummary) (pid : Nat) (pident : String)
        (rows : List GranuleRow) (old : GranuleRow),
      findBy GranuleRow.granule_id rows s.granule_id = some old →
      findBy GranuleRow.granule_id (save_granule_summary now s pid pident rows)
          s.granule_id =
        some { id := old.id, granule_id := old.granule_id, title := some s.title,
               package_id := pid, package_identifier := pident,
               granule_class := s.granule_class, collection_code := s.collection_code,
               date_issued := s.date_issued, last_modified := s.last_modified,
               download_links := s.download.map GranuleDownload.model_dump,
               metadata := some (granule_metadata_blob s),
               created_at := old.created_at, updated_at := now } ∧
      (save_granule_summary now s pid pident rows).length = rows.length) := by
  constructor
  · intro now s cid rows old hfind
    rw [save_package_summary_eq]
    exact ⟨findBy_upsertBy_found _ _ (key_update_package_summary now s cid) hfind,
      length_upsertBy_found _ _ _ hfind⟩
  · intro now s pid pident rows old hfind
    rw [save_granule_summary_eq]
    exact ⟨findBy_upsertBy_found _ _ (key_update_granule_summary now s pid pident) hfind,
      length_upsertBy_found _ _ _ hfind⟩

/-- **C2, witness.**  The full-merge theorem applied to concrete stores: a
package summary carrying an empty references list onto the rich row
`sample_prow` (the references blob stored is NULL, by Python's falsy empty
list), and a full granule record onto `sample_grow`. -/
theorem C2_full_merge_overwrites_witness :
    findBy PackageRow.package_id [sample_prow]
        ({ sample_summary "PKG1" "New title" with
           references := some [] } : PackageSummary).package_id =
      some sample_prow ∧
    (findBy PackageRow.package_id
        (save_package_summary 100
          ({ sample_summary "PKG1" "New title" with references := some [] })
          1 [sample_prow])
        ({ sample_summary "PKG1" "New title" with
           references := some [] } : PackageSummary).package_id =
      some (update_package_summary 100
        ({ sample_summary "PKG1" "New title" with references := some [] })
        1 sample_prow) ∧
     (save_package_summary 100
        ({ sample_summary "PKG1" "New title" with references := some [] })
        1 [sample_prow]).length = 1) ∧
    (update_package_summary 100
        ({ sample_summary "PKG1" "New title" with references := some [] })
        1 sample_prow).references = none ∧
    findBy GranuleRow.granule_id [sample_grow]
        (sample_gsummary "G1" "Full").granule_id = some sample_grow ∧
    (findBy GranuleRow.granule_id
        (save_granule_summary 100 (sample_gsummary "G1" "Full") 1 "PKG1"
          [sample_grow])
        (sample_gsummary "G1" "Full").granule_id =
      some (update_granule_summary 100 (sample_gsummary "G1" "Full") 1 "PKG1"
        sample_grow) ∧
     (save_granule_summary 100 (sample_gsummary "G1" "Full") 1 "PKG1"
        [sample_grow]).length = 1) :=
  ⟨by decide,
   C2_full_merge_overwrites.1 100
     ({ sample_summary "PKG1" "New title" with references := some [] }) 1
     [sample_prow] sample_prow (by decide),
   rfl,
   by decide,
   C2_full_merge_overwrites.2 100 (sample_gsummary "G1" "Full") 1 "PKG1"
     [sample_grow] sample_grow (by decide)⟩

/-! ### Claim C7 — precondition failures have zero side effects -/

/-- **C7.**  When the target Collection (for package ingestion) or the target
Package (for granule ingestion) is absent from the local store, the run
raises the `ValueError` immediately: the store is returned unchanged, no
remote page is consumed, and no detail fetch is attempted. -/
theorem C7_precondition_failure_no_side_effects :
    (∀ (now : Nat) (pages : List CollectionPackages)
        (gs : String → Except String PackageSummary) (cc : String)
        (mp : Option Nat) (fs : Bool) (db : DB),
      findBy CollectionRow.collection_code db.collections cc = none →
      ingest_collection_packages now pages gs cc mp fs db =
        { result := .error ("Collection " ++ cc ++ " not found in database"),
          db := db, pages_fetched := 0, detail_attempts := [] }) ∧
    (∀ (gp : String → GranuleList)
        (ggs : String → String → Except String GranuleSummary)
        (now : Nat) (pid : String) (mp : Option Nat) (fuel : Nat) (db : DB),
      findBy PackageRow.package_id db.packages pid = none →
      ingest_package_granules gp ggs now pid mp fuel db =
        { result := .error ("Package " ++ pid ++ " not found in database"),
          db := db, pages_fetched := 0, detail_attempts := [] }) := by
  constructor
  · intro now pages gs cc mp fs db h
    simp [ingest_collection_packages, h]
  · intro gp ggs now pid mp fuel db h
    simp [ingest_package_granules, h]

/-- **C7, witness.**  Both precondition failures on a concrete empty store. -/
theorem C7_precondition_failure_witness :
    findBy CollectionRow.collection_code (DB.mk [] [] [] []).collections "NOPE" = none ∧
    findBy PackageRow.package_id (DB.mk [] [] [] []).packages "NOPE" = none ∧
    ingest_collection_packages 5 [sample_page1] sample_get_summary "NOPE" none true
        (DB.mk [] [] [] []) =
      { result := .error "Collection NOPE not found in database",
        db := DB.mk [] [] [] [], pages_fetched := 0, detail_attempts := [] } ∧
    ingest_package_granules sample_get_page sample_get_gsummary 5 "NOPE" none 7
        (DB.mk [] [] [] []) =
      { result := .error "Package NOPE not found in database",
        db := DB.mk [] [] [] [], pages_fetched := 0, detail_attempts := [] } :=
  ⟨rfl, rfl,
   C7_precondition_failure_no_side_effects.1 5 [sample_page1] sample_get_summary
     "NOPE" none true (DB.mk [] [] [] []) rfl,
   C7_precondition_failure_no_side_effects.2 sample_get_page sample_get_gsummary 5
     "NOPE" none 7 (DB.mk [] [] [] []) rfl⟩

/-! ### Claim C9 — `max_pages = 0` imposes no limit -/

theorem max_pages_reached_none (n : Nat) : max_pages_reached none n = false := rfl

theorem max_pages_reached_some_zero (n : Nat) :
    max_pages_reached (some 0) n = false := by
  simp [max_pages_reached]

theorem process_pages_some_zero (now : Nat)
    (gs : String → Except String PackageSummary) (fs : Bool) (cid : Nat)
    (cc : String) (pages : List CollectionPackages) :
    ∀ (c pn : Nat) (st : List PackageRow × List String),
      process_pages now gs fs cid cc (some 0) pages c pn st =
        process_pages now gs fs cid cc none pages c pn st := by
  induction pages with
  | nil => intro c pn st; rfl
  | cons page rest ih =>
    intro c pn st
    simp only [process_pages, max_pages_reached_some_zero, max_pages_reached_none,
      Bool.false_eq_true, if_false]
    exact ih _ _ _

theorem granules_loop_some_zero (gp : String → GranuleList)
    (ggs : String → String → Except String GranuleSummary) (now pid : Nat)
    (pident : String) (fuel : Nat) :
    ∀ (off : String) (c pn : Nat) (st : List GranuleRow × List String),
      granules_loop gp ggs now pid pident (some 0) fuel off c pn st =
        granules_loop gp ggs now pid pident none fuel off c pn st := by
  induction fuel with
  | zero => intro off c pn st; rfl
  | succ fuel ih =>
    intro off c pn st
    simp only [granules_loop, max_pages_reached_some_zero, max_pages_reached_none,
      Bool.false_eq_true, if_false]
    cases (gp off).next_page with
    | none => rfl
    | some np =>
      dsimp only
      cases extract_offset_mark np with
      | none => rfl
      | some om => exact ih _ _ _ _

/-- **C9.**  Calling either orchestrator with `max_pages = 0` behaves exactly
like calling it with no page limit at all (Python treats `0` as falsy in
`if max_pages and page_num >= max_pages`), so every available page is
processed rather than zero pages. -/
theorem C9_max_pages_zero_is_no_limit :
    (∀ (now : Nat) (pages : List CollectionPackages)
        (gs : String → Except String PackageSummary) (cc : String)
        (fs : Bool) (db : DB),
      ingest_collection_packages now pages gs cc (some 0) fs db =
        ingest_collection_packages now pages gs cc none fs db) ∧
    (∀ (gp : String → GranuleList)
        (ggs : String → String → Except String GranuleSummary)
        (now : Nat) (pid : String) (fuel : Nat) (db : DB),
      ingest_package_granules gp ggs now pid (some 0) fuel db =
        ingest_package_granules gp ggs now pid none fuel db) := by
  constructor
  · intro now pages gs cc fs db
    unfold ingest_collection_packages
    cases findBy CollectionRow.collection_code db.collections cc with
    | none => rfl
    | some c =>
      dsimp only
      rw [process_pages_some_zero]
  · intro gp ggs now pid fuel db
    unfold ingest_package_granules
    cases findBy PackageRow.package_id db.packages pid with
    | none => rfl
    | some r =>
      dsimp only
      rw [granules_loop_some_zero]

/-! ### Claim C4 — walker pagination and termination -/

theorem iter_collection_packages_succ (fetch : String → CollectionPackages)
    (fuel : Nat) (o : String) :
    iter_collection_packages fetch (fuel + 1) o =
      fetch o ::
        (match continuation (fetch o) with
         | none => []
         | some om => iter_collection_packages fetch fuel om) := by
  simp only [iter_collection_packages, continuation]
  cases (fetch o).next_page with
  | none => rfl
  | some np => cases extract_offset_mark np <;> rfl

/-- **C4.**  The cursor walker yields exactly one page per fetched response:
a page whose continuation token is extractable leads to one further fetch
from that token, and a page whose next-page reference is absent or carries
no `offsetMark` parameter (`continuation = none`) ends the sequence without
an error.  In particular, for three pages where the third page's reference
yields no continuation, the walker yields exactly those three pages and
stops. -/
theorem C4_walker_yields_and_terminates :
    (∀ (fetch : String → CollectionPackages) (fuel : Nat) (o : String),
      continuation (fetch o) = none →
      iter_collection_packages fetch (fuel + 1) o = [fetch o]) ∧
    (∀ (fetch : String → CollectionPackages) (fuel : Nat) (o om : String),
      continuation (fetch o) = some om →
      iter_collection_packages fetch (fuel + 1) o =
        fetch o :: iter_collection_packages fetch fuel om) ∧
    (∀ (fetch : String → CollectionPackages) (fuel : Nat) (o1 o2 o3 : String),
      3 ≤ fuel →
      continuation (fetch o1) = some o2 →
      continuation (fetch o2) = some o3 →
      continuation (fetch o3) = none →
      iter_collection_packages fetch fuel o1 = [fetch o1, fetch o2, fetch o3]) := by
  refine ⟨?_, ?_, ?_⟩
  · intro fetch fuel o h
    rw [iter_collection_packages_succ, h]
  · intro fetch fuel o om h
    rw [iter_collection_packages_succ, h]
  · intro fetch fuel o1 o2 o3 hf h1 h2 h3
    obtain ⟨k, rfl⟩ : ∃ k, fuel = k + 3 := ⟨fuel - 3, by omega⟩
    rw [show k + 3 = (k + 2) + 1 from rfl, iter_collection_packages_succ, h1]
    dsimp only
    rw [show k + 2 = (k + 1) + 1 from rfl, iter_collection_packages_succ, h2]
    dsimp only
    rw [iter_collection_packages_succ, h3]

/-- **C4, witness.**  The three-page scenario on the concrete transport
`sample_fetch`: pages one and two carry `offsetMark` continuations `M2` and
`M3`, page three's reference lacks the parameter, and the walker yields
exactly the three pages. -/
theorem C4_walker_witness :
    (3 : Nat) ≤ 10 ∧
    continuation (sample_fetch "*") = some "M2" ∧
    continuation (sample_fetch "M2") = some "M3" ∧
    continuation (sample_fetch "M3") = none ∧
    iter_collection_packages sample_fetch 10 "*" =
      [sample_page1, sample_page2, sample_page3] :=
  ⟨by decide, by decide, by decide, by decide,
   C4_walker_yields_and_terminates.2.2 sample_fetch 10 "*" "M2" "M3"
     (by decide) (by decide) (by decide) (by decide)⟩

/-! ### Claim C6 — cache writes upsert a single keyed entry with TTL expiry -/

theorem findBy_cache_search_results (h : String → String) (now : Nat) (q : String)
    (r : List (String × Int)) (ttl : Nat) (rows : List SearchCacheRow) :
    ∃ e, findBy SearchCacheRow.query_hash
        (cache_search_results h now q r ttl rows) (h q) = some e ∧
      e.results = r ∧ e.result_count = dict_get_count r ∧ e.created_at = now ∧
      e.expires_at = now + ttl * 3600 := by
  rw [cache_search_results_eq]
  cases hf : findBy SearchCacheRow.query_hash rows (h q) with
  | some old =>
    exact ⟨_, findBy_upsertBy_found _ _ (fun x => rfl) hf, rfl, rfl, rfl, rfl⟩
  | none =>
    exact ⟨_, findBy_upsertBy_not_found _ _ rfl hf, rfl, rfl, rfl, rfl⟩

/-- **C6.**  `cache_search_results` upserts exactly one `SearchCache` row
keyed on the (deterministic) hash of the query string: after a write the
store holds exactly one row with that hash, carrying the written payload,
count, creation time and expiry `now + ttl_hours × 3600`; an entry written
with `ttl_hours = 0` is already expired one second later while one written
with `ttl_hours = 24` is still valid an hour later; and a repeat call for
the same query text overwrites payload, count, created-at and expiry of that
single row instead of adding a second one. -/
theorem C6_cache_put_upserts_single_entry :
    ∀ (h : String → String) (now1 now2 : Nat) (q : String)
      (r1 r2 : List (String × Int)) (ttl1 ttl2 : Nat) (rows : List SearchCacheRow),
      countBy SearchCacheRow.query_hash rows (h q) ≤ 1 →
      countBy SearchCacheRow.query_hash
          (cache_search_results h now1 q r1 ttl1 rows) (h q) = 1 ∧
      (cache_search_results h now2 q r2 ttl2
          (cache_search_results h now1 q r1 ttl1 rows)).length =
        (cache_search_results h now1 q r1 ttl1 rows).length ∧
      (∃ e, findBy SearchCacheRow.query_hash
              (cache_search_results h now1 q r1 ttl1 rows) (h q) = some e ∧
            e.results = r1 ∧ e.result_count = dict_get_count r1 ∧
            e.created_at = now1 ∧ e.expires_at = now1 + ttl1 * 3600 ∧
            (ttl1 = 0 → is_expired (now1 + 1) e = true) ∧
            (ttl1 = 24 → is_expired (now1 + 3600) e = false)) ∧
      (∃ e, findBy SearchCacheRow.query_hash
              (cache_search_results h now2 q r2 ttl2
                (cache_search_results h now1 q r1 ttl1 rows)) (h q) = some e ∧
            e.results = r2 ∧ e.result_count = dict_get_count r2 ∧
            e.created_at = now2 ∧ e.expires_at = now2 + ttl2 * 3600) := by
  intro h now1 now2 q r1 r2 ttl1 ttl2 rows hc
  obtain ⟨e1, hfind1, hres1, hcount1, hcreated1, hexp1⟩ :=
    findBy_cache_search_results h now1 q r1 ttl1 rows
  obtain ⟨e2, hfind2, hres2, hcount2, hcreated2, hexp2⟩ :=
    findBy_cache_search_results h now2 q r2 ttl2
      (cache_search_results h now1 q r1 ttl1 rows)
  refine ⟨?_, ?_, ⟨e1, hfind1, hres1, hcount1, hcreated1, hexp1, ?_, ?_⟩,
    ⟨e2, hfind2, hres2, hcount2, hcreated2, hexp2⟩⟩
  · rw [cache_search_results_eq]
    exact countBy_upsertBy _ _ (fun x => rfl) rfl hc
  · conv_lhs => rw [cache_search_results_eq]
    exact length_upsertBy_found _ _ _ hfind1
  · intro h0
    subst h0
    simp only [is_expired, hexp1, decide_eq_true_eq]
    omega
  · intro h24
    subst h24
    simp only [is_expired, hexp1, decide_eq_false_iff_not]
    omega

/-- **C6, witness.**  Two writes for the query "hello" on an initially empty
cache, the first with `ttl_hours = 0` (expired a second later), the second
with `ttl_hours = 24`; the hash collaborator is instantiated with a concrete
function. -/
theorem C6_cache_put_witness :
    countBy SearchCacheRow.query_hash ([] : List SearchCacheRow) "hello" ≤ 1 ∧
    (countBy SearchCacheRow.query_hash
        (cache_search_results (fun q => q) 1000 "hello" [("count", 3)] 0 []) "hello" = 1 ∧
      (cache_search_results (fun q => q) 2000 "hello" [("count", 5)] 24
          (cache_search_results (fun q => q) 1000 "hello" [("count", 3)] 0 [])).length =
        (cache_search_results (fun q => q) 1000 "hello" [("count", 3)] 0 []).length ∧
      (∃ e, findBy SearchCacheRow.query_hash
              (cache_search_results (fun q => q) 1000 "hello" [("count", 3)] 0 [])
              "hello" = some e ∧
            e.results = [("count", 3)] ∧ e.result_count = dict_get_count [("count", 3)] ∧
            e.created_at = 1000 ∧ e.expires_at = 1000 + 0 * 3600 ∧
            ((0 : Nat) = 0 → is_expired (1000 + 1) e = true) ∧
            ((0 : Nat) = 24 → is_expired (1000 + 3600) e = false)) ∧
      (∃ e, findBy SearchCacheRow.query_hash
              (cache_search_results (fun q => q) 2000 "hello" [("count", 5)] 24
                (cache_search_results (fun q => q) 1000 "hello" [("count", 3)] 0 []))
              "hello" = some e ∧
            e.results = [("count", 5)] ∧ e.result_count = dict_get_count [("count", 5)] ∧
            e.created_at = 2000 ∧ e.expires_at = 2000 + 24 * 3600)) :=
  ⟨by decide,
   C6_cache_put_upserts_single_entry (fun q => q) 1000 2000 "hello"
     [("count", 3)] [("count", 5)] 0 24 [] (by decide)⟩

/-! ### Claim C8 — the page ceiling is checked only between pages -/

theorem process_pages_none_stats (now : Nat)
    (gs : String → Except String PackageSummary) (fs : Bool) (cid : Nat)
    (cc : String) :
    ∀ (pages : List CollectionPackages) (c pn : Nat)
      (st : List PackageRow × List String),
      (process_pages now gs fs cid cc none pages c pn st).1 =
        c + total_records pages ∧
      (process_pages now gs fs cid cc none pages c pn st).2.1 =
        pn + pages.length := by
  intro pages
  induction pages with
  | nil => intro c pn st; simp [process_pages, total_records]
  | cons page rest ih =>
    intro c pn st
    simp only [process_pages, max_pages_reached_none, Bool.false_eq_true, if_false]
    constructor
    · rw [(ih _ _ _).1]
      simp only [total_records, List.map_cons, List.sum_cons]
      omega
    · rw [(ih _ _ _).2]
      simp only [List.length_cons]
      omega

theorem process_pages_take (now : Nat)
    (gs : String → Except String PackageSummary) (fs : Bool) (cid : Nat)
    (cc : String) :
    ∀ (pages : List CollectionPackages) (c pn m : Nat)
      (st : List PackageRow × List String),
      pn < m →
      process_pages now gs fs cid cc (some m) pages c pn st =
        process_pages now gs fs cid cc none (pages.take (m - pn)) c pn st := by
  intro pages
  induction pages with
  | nil => intro c pn m st h; simp [process_pages]
  | cons page rest ih =>
    intro c pn m st hlt
    obtain ⟨d, hd⟩ : ∃ d, m - pn = d + 1 := ⟨m - pn - 1, by omega⟩
    rw [hd, List.take_succ_cons]
    by_cases hstop : m ≤ pn + 1
    · have hd0 : d = 0 := by omega
      subst hd0
      simp only [process_pages, List.take_zero,
        show max_pages_reached (some m) (pn + 1) = true from by
          simp only [max_pages_reached, Bool.and_eq_true, decide_eq_true_eq]
          omega,
        max_pages_reached_none, Bool.false_eq_true, if_false, if_true]
    · have hlt2 : pn + 1 < m := by omega
      simp only [process_pages,
        show max_pages_reached (some m) (pn + 1) = false from by
          simp [max_pages_reached, hstop],
        max_pages_reached_none, Bool.false_eq_true, if_false]
      rw [ih _ _ _ _ hlt2, show m - (pn + 1) = d from by omega]

theorem granules_loop_page_bound (gp : String → GranuleList)
    (ggs : String → String → Except String GranuleSummary) (now pid : Nat)
    (pident : String) :
    ∀ (fuel : Nat) (off : String) (c pn m : Nat)
      (st : List GranuleRow × List String),
      pn < m →
      (granules_loop gp ggs now pid pident (some m) fuel off c pn st).2.1 ≤ m := by
  intro fuel
  induction fuel with
  | zero =>
    intro off c pn m st h
    simp only [granules_loop]
    omega
  | succ fuel ih =>
    intro off c pn m st hlt
    simp only [granules_loop]
    by_cases hstop : m ≤ pn + 1
    · simp only [show max_pages_reached (some m) (pn + 1) = true from by
        simp only [max_pages_reached, Bool.and_eq_true, decide_eq_true_eq]
        omega, if_true]
      omega
    · simp only [show max_pages_reached (some m) (pn + 1) = false from by
        simp [max_pages_reached, hstop], Bool.false_eq_true, if_false]
      cases (gp off).next_page with
      | none => dsimp only; omega
      | some np =>
        dsimp only
        cases extract_offset_mark np with
        | none => dsimp only; omega
        | some om => exact ih _ _ _ _ _ (by omega)

/-- **C8.**  With a configured page ceiling `m ≥ 1` a package run is exactly
the unlimited run over the first `m` pages (so at most `m` pages are
reconciled and every page whose processing started is processed whole);
without a limit the run consumes exactly the walker's whole sequence and
returns the total record count; and a granule run with ceiling `m ≥ 1`
consumes at most `m` pages. -/
theorem C8_page_ceiling_between_pages :
    (∀ (now : Nat) (pages : List CollectionPackages)
        (gs : String → Except String PackageSummary) (cc : String) (fs : Bool)
        (db : DB) (m : Nat), 1 ≤ m →
      ingest_collection_packages now pages gs cc (some m) fs db =
        ingest_collection_packages now (pages.take m) gs cc none fs db) ∧
    (∀ (now : Nat) (pages : List CollectionPackages)
        (gs : String → Except String PackageSummary) (cc : String) (fs : Bool)
        (db : DB) (c : CollectionRow),
      findBy CollectionRow.collection_code db.collections cc = some c →
      (ingest_collection_packages now pages gs cc none fs db).pages_fetched =
          pages.length ∧
      (ingest_collection_packages now pages gs cc none fs db).result =
          .ok (total_records pages)) ∧
    (∀ (gp : String → GranuleList)
        (ggs : String → String → Except String GranuleSummary) (now : Nat)
        (pid : String) (m fuel : Nat) (db : DB), 1 ≤ m →
      (ingest_package_granules gp ggs now pid (some m) fuel db).pages_fetched ≤ m) := by
  refine ⟨?_, ?_, ?_⟩
  · intro now pages gs cc fs db m hm
    unfold ingest_collection_packages
    cases findBy CollectionRow.collection_code db.collections cc with
    | none => rfl
    | some c =>
      dsimp only
      rw [process_pages_take now gs fs c.id cc pages 0 0 m (db.packages, []) (by omega),
        Nat.sub_zero]
  · intro now pages gs cc fs db c h
    unfold ingest_collection_packages
    rw [h]
    dsimp only
    have hst := process_pages_none_stats now gs fs c.id cc pages 0 0 (db.packages, [])
    exact ⟨by rw [hst.2, Nat.zero_add], by rw [hst.1, Nat.zero_add]⟩
  · intro gp ggs now pid m fuel db hm
    unfold ingest_package_granules
    cases findBy PackageRow.package_id db.packages pid with
    | none => dsimp only; omega
    | some r =>
      dsimp only
      exact granules_loop_page_bound gp ggs now r.id pid fuel "*" 0 0 m
        (db.granules, []) (by omega)

/-- **C8, witness.**  The three conjuncts applied to concrete two-page and
one-page runs with ceiling 1. -/
theorem C8_page_ceiling_witness :
    (1 : Nat) ≤ 1 ∧
    ingest_collection_packages 5 [sample_page1, sample_page2] sample_get_summary
        "BILLS" (some 1) true sample_db =
      ingest_collection_packages 5 ([sample_page1, sample_page2].take 1)
        sample_get_summary "BILLS" none true sample_db ∧
    findBy CollectionRow.collection_code sample_db.collections "BILLS" =
      some sample_coll ∧
    ((ingest_collection_packages 5 [sample_page1, sample_page2] sample_get_summary
        "BILLS" none true sample_db).pages_fetched = 2 ∧
     (ingest_collection_packages 5 [sample_page1, sample_page2] sample_get_summary
        "BILLS" none true sample_db).result =
       .ok (total_records [sample_page1, sample_page2])) ∧
    (ingest_package_granules sample_get_page sample_get_gsummary 5 "PKG1"
        (some 1) 7 sample_db).pages_fetched ≤ 1 :=
  ⟨by decide,
   C8_page_ceiling_between_pages.1 5 [sample_page1, sample_page2]
     sample_get_summary "BILLS" true sample_db 1 (by decide),
   by decide,
   C8_page_ceiling_between_pages.2.1 5 [sample_page1, sample_page2]
     sample_get_summary "BILLS" true sample_db sample_coll (by decide),
   C8_page_ceiling_between_pages.2.2 sample_get_page sample_get_gsummary 5
     "PKG1" 1 7 sample_db (by decide)⟩

/-! ### Claim C3 — per-record detail-fetch failures are isolated -/

theorem foldl_fst_pair {β γ δ : Type} (g2 : (γ × δ) → β → (γ × δ))
    (g : γ → β → γ) (hfg : ∀ p b, (g2 p b).1 = g p.1 b) :
    ∀ (l : List β) (p : γ × δ), (l.foldl g2 p).1 = l.foldl g p.1 := by
  intro l
  induction l with
  | nil => intro p; rfl
  | cons b l ih =>
    intro p
    rw [List.foldl_cons, List.foldl_cons, ih, hfg]

theorem process_package_record_fst (now : Nat)
    (gs : String → Except String PackageSummary) (fs : Bool) (cid : Nat)
    (cc : String) (st : List PackageRow × List String) (pkg : PackageInfo) :
    (process_package_record now gs fs cid cc st pkg).1 =
      process_package_rows now gs fs cid cc st.1 pkg := by
  unfold process_package_record process_package_rows
  by_cases hfs : fs = true
  · simp only [if_pos hfs]
    cases gs pkg.package_id <;> rfl
  · simp only [if_neg hfs]

theorem foldl_records_fst (now : Nat)
    (gs : String → Except String PackageSummary) (fs : Bool) (cid : Nat)
    (cc : String) (L : List PackageInfo) (st : List PackageRow × List String) :
    (L.foldl (process_package_record now gs fs cid cc) st).1 =
      foldRecords now gs fs cid cc L st.1 := by
  unfold foldRecords
  exact foldl_fst_pair _ _ (process_package_record_fst now gs fs cid cc) L st

/-- **C3.**  With detail fetching enabled, the run's returned count is the
total number of records of all processed pages whatever the detail-fetch
outcomes are (so no per-record failure aborts the run or is skipped by the
count); and in the concrete one-page three-record scenario where only the
second record's detail fetch fails, that record alone is stored via the
basic merge while the two others are stored via the full merge. -/
theorem C3_detail_failure_isolated :
    (∀ (now : Nat) (pages : List CollectionPackages)
        (gs : String → Except String PackageSummary) (cc : String) (db : DB)
        (c : CollectionRow),
      findBy CollectionRow.collection_code db.collections cc = some c →
      (ingest_collection_packages now pages gs cc none true db).result =
        .ok (total_records pages)) ∧
    (∀ (now : Nat) (page : CollectionPackages)
        (gs : String → Except String PackageSummary) (cc : String) (db : DB)
        (c : CollectionRow) (p1 p2 p3 : PackageInfo) (s1 s3 : PackageSummary)
        (msg : String),
      findBy CollectionRow.collection_code db.collections cc = some c →
      page.packages = [p1, p2, p3] →
      gs p1.package_id = .ok s1 → s1.package_id = p1.package_id →
      gs p2.package_id = .error msg →
      gs p3.package_id = .ok s3 → s3.package_id = p3.package_id →
      p1.package_id ≠ p2.package_id → p1.package_id ≠ p3.package_id →
      p2.package_id ≠ p3.package_id →
      findBy PackageRow.package_id db.packages p1.package_id = none →
      findBy PackageRow.package_id db.packages p2.package_id = none →
      findBy PackageRow.package_id db.packages p3.package_id = none →
      (ingest_collection_packages now [page] gs cc none true db).db.packages =
        db.packages ++
          [new_package_summary now s1 c.id (db.packages.length + 1),
           new_package_basic now p2 c.id cc (db.packages.length + 2),
           new_package_summary now s3 c.id (db.packages.length + 3)] ∧
      (ingest_collection_packages now [page] gs cc none true db).result = .ok 3) := by
  constructor
  · intro now pages gs cc db c h
    unfold ingest_collection_packages
    rw [h]
    dsimp only
    rw [(process_pages_none_stats now gs true c.id cc pages 0 0 (db.packages, [])).1,
      Nat.zero_add]
  · intro now page gs cc db c p1 p2 p3 s1 s3 msg hfc hpage hgs1 hs1 hgs2 hgs3 hs3
      h12 h13 h23 f1 f2 f3
    unfold ingest_collection_packages
    rw [hfc]
    dsimp only
    simp only [process_pages, max_pages_reached_none, Bool.false_eq_true, if_false]
    have e1 : process_package_rows now gs true c.id cc db.packages p1 =
        db.packages ++ [new_package_summary now s1 c.id (db.packages.length + 1)] := by
      unfold process_package_rows
      rw [if_pos rfl, hgs1]
      dsimp only
      rw [save_package_summary_eq,
        upsertBy_not_found _ _ _ (by rw [hs1]; exact f1)]
    have key1 : (new_package_summary now s1 c.id (db.packages.length + 1)).package_id =
        s1.package_id := rfl
    have e2 : process_package_rows now gs true c.id cc
        (db.packages ++ [new_package_summary now s1 c.id (db.packages.length + 1)]) p2 =
        (db.packages ++ [new_package_summary now s1 c.id (db.packages.length + 1)]) ++
          [new_package_basic now p2 c.id cc (db.packages.length + 2)] := by
      unfold process_package_rows
      rw [if_pos rfl, hgs2]
      dsimp only
      have ffind : findBy PackageRow.package_id
          (db.packages ++ [new_package_summary now s1 c.id (db.packages.length + 1)])
          p2.package_id = none := by
        rw [findBy_append_none _ f2]
        exact findBy_singleton_ne _ (by rw [key1, hs1]; exact h12)
      rw [save_package_basic_eq, upsertBy_not_found _ _ _ ffind]
      simp [List.length_append]
    have e3 : process_package_rows now gs true c.id cc
        ((db.packages ++ [new_package_summary now s1 c.id (db.packages.length + 1)]) ++
          [new_package_basic now p2 c.id cc (db.packages.length + 2)]) p3 =
        ((db.packages ++ [new_package_summary now s1 c.id (db.packages.length + 1)]) ++
          [new_package_basic now p2 c.id cc (db.packages.length + 2)]) ++
          [new_package_summary now s3 c.id (db.packages.length + 3)] := by
      unfold process_package_rows
      rw [if_pos rfl, hgs3]
      dsimp only
      have ffind : findBy PackageRow.package_id
          ((db.packages ++ [new_package_summary now s1 c.id (db.packages.length + 1)]) ++
            [new_package_basic now p2 c.id cc (db.packages.length + 2)])
          s3.package_id = none := by
        rw [hs3]
        rw [findBy_append_none _ (by
          rw [findBy_append_none _ f3]
          exact findBy_singleton_ne _ (by rw [key1, hs1]; exact h13))]
        exact findBy_singleton_ne _ (by
          show p2.package_id ≠ p3.package_id
          exact h23)
      rw [save_package_summary_eq, upsertBy_not_found _ _ _ ffind]
      simp [List.length_append]
    constructor
    · rw [hpage]
      rw [foldl_records_fst]
      show foldRecords now gs true c.id cc [p1, p2, p3] db.packages = _
      unfold foldRecords
      rw [List.foldl_cons, List.foldl_cons, List.foldl_cons, List.foldl_nil,
        e1, e2, e3]
      simp [List.append_assoc]
    · rw [hpage]
      rfl

/-- **C3, witness.**  The three-record scenario on concrete data: the detail
fetch fails exactly for `P2`, which is stored basic while `P1` and `P3` are
stored with full detail, and the run returns count 3. -/
theorem C3_detail_failure_witness :
    sample_get_summary (sample_pkg "P2" 12).package_id = .error "HTTP 500" ∧
    ((ingest_collection_packages 7 [sample_page_c3] sample_get_summary "BILLS"
        none true sample_db).db.packages =
      sample_db.packages ++
        [new_package_summary 7 (sample_summary "P1" "Title P1") 1 2,
         new_package_basic 7 (sample_pkg "P2" 12) 1 "BILLS" 3,
         new_package_summary 7 (sample_summary "P3" "Title P3") 1 4] ∧
     (ingest_collection_packages 7 [sample_page_c3] sample_get_summary "BILLS"
        none true sample_db).result = .ok 3) :=
  ⟨rfl,
   C3_detail_failure_isolated.2 7 sample_page_c3 sample_get_summary "BILLS"
     sample_db sample_coll (sample_pkg "P1" 11) (sample_pkg "P2" 12)
     (sample_pkg "P3" 13) (sample_summary "P1" "Title P1")
     (sample_summary "P3" "Title P3") "HTTP 500"
     (by decide) rfl rfl rfl rfl rfl rfl (by decide) (by decide) (by decide)
     (by decide) (by decide) (by decide)⟩

/-! ### Claim C10 — granule ingestion always attempts the detail fetch -/

theorem if_true_bool {α : Sort 1} (a b : α) :
    (if (true = true) then a else b) = a := if_pos rfl

theorem if_false_bool {α : Sort 1} (a b : α) :
    (if (false = true) then a else b) = b := if_neg (by simp)

theorem process_granule_record_fst (now : Nat)
    (ggs : String → String → Except String GranuleSummary) (pid : Nat)
    (pident : String) (st : List GranuleRow × List String) (g : GranuleInfo) :
    (process_granule_record now ggs pid pident st g).1 =
      process_granule_rows now ggs pid pident st.1 g := by
  unfold process_granule_record process_granule_rows
  cases ggs pident g.granule_id <;> rfl

theorem process_granule_record_snd (now : Nat)
    (ggs : String → String → Except String GranuleSummary) (pid : Nat)
    (pident : String) (st : List GranuleRow × List String) (g : GranuleInfo) :
    (process_granule_record now ggs pid pident st g).2 =
      st.2 ++ [g.granule_id] := by
  unfold process_granule_record
  cases ggs pident g.granule_id <;> rfl

theorem foldl_granule_att (now : Nat)
    (ggs : String → String → Except String GranuleSummary) (pid : Nat)
    (pident : String) :
    ∀ (L : List GranuleInfo) (st : List GranuleRow × List String),
      (L.foldl (process_granule_record now ggs pid pident) st).2 =
        st.2 ++ L.map GranuleInfo.granule_id := by
  intro L
  induction L with
  | nil => intro st; simp
  | cons g L ih =>
    intro st
    rw [List.foldl_cons, ih, process_granule_record_snd]
    simp

theorem granules_loop_count_attempts (gp : String → GranuleList)
    (ggs : String → String → Except String GranuleSummary) (now pid : Nat)
    (pident : String) (mp : Option Nat) :
    ∀ (fuel : Nat) (off : String) (c pn : Nat)
      (st : List GranuleRow × List String),
      (granules_loop gp ggs now pid pident mp fuel off c pn st).1 + st.2.length =
        (granules_loop gp ggs now pid pident mp fuel off c pn st).2.2.2.length + c := by
  intro fuel
  induction fuel with
  | zero => intro off c pn st; simp only [granules_loop]; omega
  | succ fuel ih =>
    intro off c pn st
    simp only [granules_loop]
    have hatt := foldl_granule_att now ggs pid pident (gp off).granules st
    have hlen : (List.foldl (process_granule_record now ggs pid pident) st
        (gp off).granules).2.length =
        st.2.length + (gp off).granules.length := by
      rw [hatt]
      simp
    cases hmp : max_pages_reached mp (pn + 1) with
    | true =>
      simp only [if_true_bool, if_true]
      omega
    | false =>
      simp only [if_false_bool]
      cases (gp off).next_page with
      | none => dsimp only; omega
      | some np =>
        dsimp only
        cases extract_offset_mark np with
        | none => dsimp only; omega
        | some om =>
          dsimp only
          have h2 := ih om (c + (gp off).granules.length) (pn + 1)
            (List.foldl (process_granule_record now ggs pid pident) st (gp off).granules)
          omega

theorem granules_loop_gs_independent (gp : String → GranuleList)
    (ggs1 ggs2 : String → String → Except String GranuleSummary) (now pid : Nat)
    (pident : String) (mp : Option Nat) :
    ∀ (fuel : Nat) (off : String) (c pn : Nat)
      (st1 st2 : List GranuleRow × List String), st1.2 = st2.2 →
      (granules_loop gp ggs1 now pid pident mp fuel off c pn st1).1 =
        (granules_loop gp ggs2 now pid pident mp fuel off c pn st2).1 ∧
      (granules_loop gp ggs1 now pid pident mp fuel off c pn st1).2.1 =
        (granules_loop gp ggs2 now pid pident mp fuel off c pn st2).2.1 ∧
      (granules_loop gp ggs1 now pid pident mp fuel off c pn st1).2.2.2 =
        (granules_loop gp ggs2 now pid pident mp fuel off c pn st2).2.2.2 := by
  intro fuel
  induction fuel with
  | zero =>
    intro off c pn st1 st2 h
    simp only [granules_loop]
    exact ⟨trivial, trivial, h⟩
  | succ fuel ih =>
    intro off c pn st1 st2 h
    simp only [granules_loop]
    have hatt : (List.foldl (process_granule_record now ggs1 pid pident) st1
        (gp off).granules).2 =
        (List.foldl (process_granule_record now ggs2 pid pident) st2
          (gp off).granules).2 := by
      rw [foldl_granule_att, foldl_granule_att, h]
    cases hmp : max_pages_reached mp (pn + 1) with
    | true =>
      simp only [if_true_bool, if_true]
      exact ⟨trivial, trivial, hatt⟩
    | false =>
      simp only [if_false_bool]
      cases (gp off).next_page with
      | none => exact ⟨rfl, rfl, hatt⟩
      | some np =>
        dsimp only
        cases extract_offset_mark np with
        | none => exact ⟨rfl, rfl, hatt⟩
        | some om =>
          dsimp only
          exact ih om _ _ _ _ hatt

/-- **C10.**  `ingest_package_granules` attempts the full-detail fetch for
every granule of every processed page, unconditionally: the run's returned
count equals the number of detail-fetch attempts, and the attempt log is the
same whatever the detail fetcher answers (there is no caller flag analogous
to `fetch_summaries`); the basic merge is applied only as the per-record
fallback when the detail fetch fails, as the concrete two-granule scenario
shows: the succeeding granule is stored with full detail, the failing one
with only basic fields. -/
theorem C10_granule_detail_always_attempted :
    (∀ (gp : String → GranuleList)
        (ggs : String → String → Except String GranuleSummary) (now : Nat)
        (pid : String) (mp : Option Nat) (fuel : Nat) (db : DB) (ρ : PackageRow),
      findBy PackageRow.package_id db.packages pid = some ρ →
      (ingest_package_granules gp ggs now pid mp fuel db).result =
        .ok (ingest_package_granules gp ggs now pid mp fuel db).detail_attempts.length) ∧
    (∀ (gp : String → GranuleList)
        (ggs1 ggs2 : String → String → Except String GranuleSummary) (now : Nat)
        (pid : String) (mp : Option Nat) (fuel : Nat) (db : DB),
      (ingest_package_granules gp ggs1 now pid mp fuel db).detail_attempts =
        (ingest_package_granules gp ggs2 now pid mp fuel db).detail_attempts) ∧
    (∀ (gp : String → GranuleList)
        (ggs : String → String → Except String GranuleSummary) (now : Nat)
        (pid : String) (fuel : Nat) (db : DB) (ρ : PackageRow) (gl : GranuleList)
        (g1 g2 : GranuleInfo) (s1 : GranuleSummary) (msg : String),
      findBy PackageRow.package_id db.packages pid = some ρ →
      gp "*" = gl → gl.granules = [g1, g2] → gl.next_page = none →
      ggs pid g1.granule_id = .ok s1 → s1.granule_id = g1.granule_id →
      ggs pid g2.granule_id = .error msg →
      g1.granule_id ≠ g2.granule_id →
      findBy GranuleRow.granule_id db.granules g1.granule_id = none →
      findBy GranuleRow.granule_id db.granules g2.granule_id = none →
      (ingest_package_granules gp ggs now pid none (fuel + 1) db).db.granules =
        db.granules ++
          [new_granule_summary now s1 ρ.id pid (db.granules.length + 1),
           new_granule_basic now g2 ρ.id pid (db.granules.length + 2)] ∧
      (ingest_package_granules gp ggs now pid none (fuel + 1) db).result = .ok 2) := by
  refine ⟨?_, ?_, ?_⟩
  · intro gp ggs now pid mp fuel db ρ h
    unfold ingest_package_granules
    rw [h]
    dsimp only
    have h2 := granules_loop_count_attempts gp ggs now ρ.id pid mp fuel "*" 0 0
      (db.granules, [])
    simp only [List.length_nil, Nat.add_zero] at h2
    rw [h2]
  · intro gp ggs1 ggs2 now pid mp fuel db
    unfold ingest_package_granules
    cases findBy PackageRow.package_id db.packages pid with
    | none => rfl
    | some ρ =>
      dsimp only
      exact (granules_loop_gs_independent gp ggs1 ggs2 now ρ.id pid mp fuel "*" 0 0
        (db.granules, []) (db.granules, []) rfl).2.2
  · intro gp ggs now pid fuel db ρ gl g1 g2 s1 msg hfp hgp hglg hnp hgs1 hs1 hgs2
      h12 f1 f2
    unfold ingest_package_granules
    rw [hfp]
    dsimp only
    simp only [granules_loop]
    rw [hgp]
    simp only [max_pages_reached_none, Bool.false_eq_true, if_false]
    rw [hnp]
    dsimp only
    have e1 : process_granule_rows now ggs ρ.id pid db.granules g1 =
        db.granules ++ [new_granule_summary now s1 ρ.id pid (db.granules.length + 1)] := by
      unfold process_granule_rows
      rw [hgs1]
      dsimp only
      rw [save_granule_summary_eq, upsertBy_not_found _ _ _ (by rw [hs1]; exact f1)]
    have e2 : process_granule_rows now ggs ρ.id pid
        (db.granules ++ [new_granule_summary now s1 ρ.id pid (db.granules.length + 1)]) g2 =
        (db.granules ++ [new_granule_summary now s1 ρ.id pid (db.granules.length + 1)]) ++
          [new_granule_basic now g2 ρ.id pid (db.granules.length + 2)] := by
      unfold process_granule_rows
      rw [hgs2]
      dsimp only
      have ffind : findBy GranuleRow.granule_id
          (db.granules ++ [new_granule_summary now s1 ρ.id pid (db.granules.length + 1)])
          g2.granule_id = none := by
        rw [findBy_append_none _ f2]
        exact findBy_singleton_ne _ (by
          show s1.granule_id ≠ g2.granule_id
          rw [hs1]
          exact h12)
      rw [save_granule_basic_eq, upsertBy_not_found _ _ _ ffind]
      simp [List.length_append]
    constructor
    · rw [hglg]
      rw [foldl_fst_pair _ _ (process_granule_record_fst now ggs ρ.id pid)]
      rw [List.foldl_cons, List.foldl_cons, List.foldl_nil, e1, e2]
      simp [List.append_assoc]
    · rw [hglg]
      rfl

/-- **C10, witness.**  All three conjuncts on the concrete granule run for
`PKG1`: the failing detail fetch for `G2` leaves it stored basic while `G1`
is stored with full detail; the count equals the attempt-log length; and the
attempt log does not depend on the detail fetcher. -/
theorem C10_granule_detail_witness :
    sample_get_gsummary "PKG1" "G2" = .error "HTTP 500" ∧
    (ingest_package_granules sample_get_page sample_get_gsummary 9 "PKG1" none 5
        (DB.mk [sample_coll] [sample_prow] [] [])).result =
      .ok (ingest_package_granules sample_get_page sample_get_gsummary 9 "PKG1"
        none 5 (DB.mk [sample_coll] [sample_prow] [] [])).detail_attempts.length ∧
    (ingest_package_granules sample_get_page sample_get_gsummary 9 "PKG1" none 5
        (DB.mk [sample_coll] [sample_prow] [] [])).detail_attempts =
      (ingest_package_granules sample_get_page (fun _ _ => .error "down") 9 "PKG1"
        none 5 (DB.mk [sample_coll] [sample_prow] [] [])).detail_attempts ∧
    ((ingest_package_granules sample_get_page sample_get_gsummary 9 "PKG1" none 5
        (DB.mk [sample_coll] [sample_prow] [] [])).db.granules =
      [] ++
        [new_granule_summary 9 (sample_gsummary "G1" "Full G1") 1 "PKG1" 1,
         new_granule_basic 9 (sample_gi "G2" "Sec 2") 1 "PKG1" 2] ∧
     (ingest_package_granules sample_get_page sample_get_gsummary 9 "PKG1" none 5
        (DB.mk [sample_coll] [sample_prow] [] [])).result = .ok 2) :=
  ⟨rfl,
   C10_granule_detail_always_attempted.1 sample_get_page sample_get_gsummary 9
     "PKG1" none 5 (DB.mk [sample_coll] [sample_prow] [] []) sample_prow (by decide),
   C10_granule_detail_always_attempted.2.1 sample_get_page sample_get_gsummary
     (fun _ _ => .error "down") 9 "PKG1" none 5
     (DB.mk [sample_coll] [sample_prow] [] []),
   C10_granule_detail_always_attempted.2.2 sample_get_page sample_get_gsummary 9
     "PKG1" 4 (DB.mk [sample_coll] [sample_prow] [] []) sample_prow sample_glist
     (sample_gi "G1" "Sec 1") (sample_gi "G2" "Sec 2")
     (sample_gsummary "G1" "Full G1") "HTTP 500"
     (by decide) rfl rfl rfl rfl rfl rfl (by decide) rfl rfl⟩

/-! ### Claim C5 — ingestion is idempotent

The per-record step `process_package_rows` is analysed through the update it
applies to an already-present row (`process_package_touch`): processing a
record leaves behind a row that the touch fixes, and re-processing a record
whose row is already touched is the identity on the store.  The detail
fetcher is assumed to answer the summary of the identifier it was asked for
(`hgs`), which makes the written key of every step the record's own
identifier. -/

theorem foldRecords_nil (now : Nat) (gs : String → Except String PackageSummary)
    (fs : Bool) (cid : Nat) (cc : String) (rows : List PackageRow) :
    foldRecords now gs fs cid cc [] rows = rows := rfl

theorem foldRecords_cons (now : Nat) (gs : String → Except String PackageSummary)
    (fs : Bool) (cid : Nat) (cc : String) (a : PackageInfo) (L : List PackageInfo)
    (rows : List PackageRow) :
    foldRecords now gs fs cid cc (a :: L) rows =
      foldRecords now gs fs cid cc L (process_package_rows now gs fs cid cc rows a) := by
  simp [foldRecords]

theorem foldPages_nil (now : Nat) (gs : String → Except String PackageSummary)
    (fs : Bool) (cid : Nat) (cc : String) (rows : List PackageRow) :
    foldPages now gs fs cid cc [] rows = rows := rfl

theorem foldPages_cons (now : Nat) (gs : String → Except String PackageSummary)
    (fs : Bool) (cid : Nat) (cc : String) (page : CollectionPackages)
    (rest : List CollectionPackages) (rows : List PackageRow) :
    foldPages now gs fs cid cc (page :: rest) rows =
      foldPages now gs fs cid cc rest (foldRecords now gs fs cid cc page.packages rows) := by
  simp [foldPages]

theorem record_ids_cons (page : CollectionPackages) (rest : List CollectionPackages) :
    record_ids (page :: rest) =
      page.packages.map PackageInfo.package_id ++ record_ids rest := rfl

theorem step_find_self (now : Nat) (gs : String → Except String PackageSummary)
    (fs : Bool) (cid : Nat) (cc : String) (pkg : PackageInfo)
    (rows : List PackageRow) (hgs : ∀ i s, gs i = .ok s → s.package_id = i) :
    ∃ ρ, findBy PackageRow.package_id
        (process_package_rows now gs fs cid cc rows pkg) pkg.package_id = some ρ ∧
      process_package_touch now gs fs cid pkg ρ = ρ := by
  unfold process_package_rows process_package_touch
  by_cases hfs : fs = true
  · simp only [if_pos hfs]
    cases hgso : gs pkg.package_id with
    | ok s =>
      dsimp only
      have hk : s.package_id = pkg.package_id := hgs _ _ hgso
      rw [save_package_summary_eq]
      cases hf : findBy PackageRow.package_id rows s.package_id with
      | some old =>
        refine ⟨update_package_summary now s cid old, ?_, rfl⟩
        rw [← hk]
        exact findBy_upsertBy_found _ _ (key_update_package_summary now s cid) hf
      | none =>
        refine ⟨new_package_summary now s cid (rows.length + 1), ?_, rfl⟩
        rw [← hk]
        exact findBy_upsertBy_not_found _ _ rfl hf
    | error e =>
      dsimp only
      rw [save_package_basic_eq]
      cases hf : findBy PackageRow.package_id rows pkg.package_id with
      | some old =>
        exact ⟨update_package_basic now pkg old,
          findBy_upsertBy_found _ _ (key_update_package_basic now pkg) hf, rfl⟩
      | none =>
        exact ⟨new_package_basic now pkg cid cc (rows.length + 1),
          findBy_upsertBy_not_found _ _ rfl hf, rfl⟩
  · simp only [if_neg hfs]
    rw [save_package_basic_eq]
    cases hf : findBy PackageRow.package_id rows pkg.package_id with
    | some old =>
      exact ⟨update_package_basic now pkg old,
        findBy_upsertBy_found _ _ (key_update_package_basic now pkg) hf, rfl⟩
    | none =>
      exact ⟨new_package_basic now pkg cid cc (rows.length + 1),
        findBy_upsertBy_not_found _ _ rfl hf, rfl⟩

theorem step_frame (now : Nat) (gs : String → Except String PackageSummary)
    (fs : Bool) (cid : Nat) (cc : String) (pkg : PackageInfo)
    (rows : List PackageRow) (q : String)
    (hgs : ∀ i s, gs i = .ok s → s.package_id = i) (hq : q ≠ pkg.package_id) :
    findBy PackageRow.package_id (process_package_rows now gs fs cid cc rows pkg) q =
      findBy PackageRow.package_id rows q := by
  unfold process_package_rows
  by_cases hfs : fs = true
  · simp only [if_pos hfs]
    cases hgso : gs pkg.package_id with
    | ok s =>
      dsimp only
      rw [save_package_summary_eq]
      exact findBy_upsertBy_ne _ (key_update_package_summary now s cid) rfl
        (by rw [hgs _ _ hgso]; exact hq)
    | error e =>
      dsimp only
      rw [save_package_basic_eq]
      exact findBy_upsertBy_ne _ (key_update_package_basic now pkg) rfl hq
  · simp only [if_neg hfs]
    rw [save_package_basic_eq]
    exact findBy_upsertBy_ne _ (key_update_package_basic now pkg) rfl hq

theorem step_nodup (now : Nat) (gs : String → Except String PackageSummary)
    (fs : Bool) (cid : Nat) (cc : String) (pkg : PackageInfo)
    (rows : List PackageRow)
    (hn : (rows.map PackageRow.package_id).Nodup) :
    ((process_package_rows now gs fs cid cc rows pkg).map PackageRow.package_id).Nodup := by
  unfold process_package_rows
  by_cases hfs : fs = true
  · simp only [if_pos hfs]
    cases hgso : gs pkg.package_id with
    | ok s =>
      dsimp only
      rw [save_package_summary_eq]
      exact nodup_upsertBy _ _ (key_update_package_summary now s cid) rfl hn
    | error e =>
      dsimp only
      rw [save_package_basic_eq]
      exact nodup_upsertBy _ _ (key_update_package_basic now pkg) rfl hn
  · simp only [if_neg hfs]
    rw [save_package_basic_eq]
    exact nodup_upsertBy _ _ (key_update_package_basic now pkg) rfl hn

theorem step_fix (now : Nat) (gs : String → Except String PackageSummary)
    (fs : Bool) (cid : Nat) (cc : String) (pkg : PackageInfo)
    (rows : List PackageRow) (ρ : PackageRow)
    (hgs : ∀ i s, gs i = .ok s → s.package_id = i)
    (hn : (rows.map PackageRow.package_id).Nodup)
    (hf : findBy PackageRow.package_id rows pkg.package_id = some ρ)
    (hfix : process_package_touch now gs fs cid pkg ρ = ρ) :
    process_package_rows now gs fs cid cc rows pkg = rows := by
  unfold process_package_rows
  unfold process_package_touch at hfix
  by_cases hfs : fs = true
  · simp only [if_pos hfs] at hfix ⊢
    cases hgso : gs pkg.package_id with
    | ok s =>
      rw [hgso] at hfix
      dsimp only at hfix ⊢
      rw [save_package_summary_eq]
      exact upsertBy_fix _ _ _ hn (by rw [hgs _ _ hgso]; exact hf) hfix
    | error e =>
      rw [hgso] at hfix
      dsimp only at hfix ⊢
      rw [save_package_basic_eq]
      exact upsertBy_fix _ _ _ hn hf hfix
  · simp only [if_neg hfs] at hfix ⊢
    rw [save_package_basic_eq]
    exact upsertBy_fix _ _ _ hn hf hfix

theorem foldRecords_frame (now : Nat) (gs : String → Except String PackageSummary)
    (fs : Bool) (cid : Nat) (cc : String)
    (hgs : ∀ i s, gs i = .ok s → s.package_id = i) :
    ∀ (L : List PackageInfo) (rows : List PackageRow) (q : String),
      (∀ pkg ∈ L, pkg.package_id ≠ q) →
      findBy PackageRow.package_id (foldRecords now gs fs cid cc L rows) q =
        findBy PackageRow.package_id rows q := by
  intro L
  induction L with
  | nil => intro rows q _; rfl
  | cons a L ih =>
    intro rows q h
    rw [foldRecords_cons, ih _ _ (fun p hp => h p (List.mem_cons_of_mem _ hp)),
      step_frame now gs fs cid cc a rows q hgs
        (Ne.symm (h a (List.mem_cons_self _ _)))]

theorem foldRecords_nodup (now : Nat) (gs : String → Except String PackageSummary)
    (fs : Bool) (cid : Nat) (cc : String) :
    ∀ (L : List PackageInfo) (rows : List PackageRow),
      (rows.map PackageRow.package_id).Nodup →
      ((foldRecords now gs fs cid cc L rows).map PackageRow.package_id).Nodup := by
  intro L
  induction L with
  | nil => intro rows hn; exact hn
  | cons a L ih =>
    intro rows hn
    rw [foldRecords_cons]
    exact ih _ (step_nodup now gs fs cid cc a rows hn)

theorem foldRecords_saturates (now : Nat) (gs : String → Except String PackageSummary)
    (fs : Bool) (cid : Nat) (cc : String)
    (hgs : ∀ i s, gs i = .ok s → s.package_id = i) :
    ∀ (L : List PackageInfo) (rows : List PackageRow),
      ((L.map PackageInfo.package_id).Nodup) →
      ∀ pkg ∈ L, ∃ ρ, findBy PackageRow.package_id
          (foldRecords now gs fs cid cc L rows) pkg.package_id = some ρ ∧
        process_package_touch now gs fs cid pkg ρ = ρ := by
  intro L
  induction L with
  | nil => intro rows _ pkg hm; simp at hm
  | cons a L ih =>
    intro rows hn pkg hm
    rw [List.map_cons, List.nodup_cons] at hn
    rw [foldRecords_cons]
    rcases List.mem_cons.mp hm with rfl | hmL
    · obtain ⟨ρ, hρ, hfix⟩ := step_find_self now gs fs cid cc pkg rows hgs
      refine ⟨ρ, ?_, hfix⟩
      rw [foldRecords_frame now gs fs cid cc hgs L _ _ ?_, hρ]
      intro p hp hpe
      exact hn.1 (hpe ▸ List.mem_map_of_mem _ hp)
    · exact ih _ hn.2 pkg hmL

theorem foldRecords_fixes (now : Nat) (gs : String → Except String PackageSummary)
    (fs : Bool) (cid : Nat) (cc : String)
    (hgs : ∀ i s, gs i = .ok s → s.package_id = i) :
    ∀ (L : List PackageInfo) (rows : List PackageRow),
      ((rows.map PackageRow.package_id).Nodup) →
      (∀ pkg ∈ L, ∃ ρ, findBy PackageRow.package_id rows pkg.package_id = some ρ ∧
        process_package_touch now gs fs cid pkg ρ = ρ) →
      foldRecords now gs fs cid cc L rows = rows := by
  intro L
  induction L with
  | nil => intro rows _ _; rfl
  | cons a L ih =>
    intro rows hn hsat
    obtain ⟨ρ, hρ, hfix⟩ := hsat a (List.mem_cons_self _ _)
    rw [foldRecords_cons, step_fix now gs fs cid cc a rows ρ hgs hn hρ hfix]
    exact ih _ hn (fun p hp => hsat p (List.mem_cons_of_mem _ hp))

theorem foldPages_frame (now : Nat) (gs : String → Except String PackageSummary)
    (fs : Bool) (cid : Nat) (cc : String)
    (hgs : ∀ i s, gs i = .ok s → s.package_id = i) :
    ∀ (pages : List CollectionPackages) (rows : List PackageRow) (q : String),
      (∀ i ∈ record_ids pages, i ≠ q) →
      findBy PackageRow.package_id (foldPages now gs fs cid cc pages rows) q =
        findBy PackageRow.package_id rows q := by
  intro pages
  induction pages with
  | nil => intro rows q _; rfl
  | cons page rest ih =>
    intro rows q h
    rw [foldPages_cons, ih _ _ (fun i hi => h i (by
        rw [record_ids_cons]
        exact List.mem_append_right _ hi)),
      foldRecords_frame now gs fs cid cc hgs _ _ _ (fun pkg hp => h _ (by
        rw [record_ids_cons]
        exact List.mem_append_left _ (List.mem_map_of_mem _ hp)))]

theorem foldPages_nodup (now : Nat) (gs : String → Except String PackageSummary)
    (fs : Bool) (cid : Nat) (cc : String) :
    ∀ (pages : List CollectionPackages) (rows : List PackageRow),
      (rows.map PackageRow.package_id).Nodup →
      ((foldPages now gs fs cid cc pages rows).map PackageRow.package_id).Nodup := by
  intro pages
  induction pages with
  | nil => intro rows hn; exact hn
  | cons page rest ih =>
    intro rows hn
    rw [foldPages_cons]
    exact ih _ (foldRecords_nodup now gs fs cid cc _ _ hn)

theorem foldPages_saturates (now : Nat) (gs : String → Except String PackageSummary)
    (fs : Bool) (cid : Nat) (cc : String)
    (hgs : ∀ i s, gs i = .ok s → s.package_id = i) :
    ∀ (pages : List CollectionPackages) (rows : List PackageRow),
      (record_ids pages).Nodup →
      ∀ page ∈ pages, ∀ pkg ∈ page.packages,
        ∃ ρ, findBy PackageRow.package_id
            (foldPages now gs fs cid cc pages rows) pkg.package_id = some ρ ∧
          process_package_touch now gs fs cid pkg ρ = ρ := by
  intro pages
  induction pages with
  | nil => intro rows _ page hm; simp at hm
  | cons page rest ih =>
    intro rows hn pg hpg pkg hpkg
    rw [record_ids_cons, List.nodup_append] at hn
    rw [foldPages_cons]
    rcases List.mem_cons.mp hpg with rfl | hrest
    · obtain ⟨ρ, hρ, hfix⟩ :=
        foldRecords_saturates now gs fs cid cc hgs pg.packages rows hn.1 pkg hpkg
      refine ⟨ρ, ?_, hfix⟩
      rw [foldPages_frame now gs fs cid cc hgs rest _ _ ?_, hρ]
      intro i hi hie
      exact hn.2.2 (List.mem_map_of_mem _ hpkg) (hie ▸ hi)
    · exact ih _ hn.2.1 pg hrest pkg hpkg

theorem foldPages_fixes (now : Nat) (gs : String → Except String PackageSummary)
    (fs : Bool) (cid : Nat) (cc : String)
    (hgs : ∀ i s, gs i = .ok s → s.package_id = i) :
    ∀ (pages : List CollectionPackages) (rows : List PackageRow),
      ((rows.map PackageRow.package_id).Nodup) →
      (∀ page ∈ pages, ∀ pkg ∈ page.packages,
        ∃ ρ, findBy PackageRow.package_id rows pkg.package_id = some ρ ∧
          process_package_touch now gs fs cid pkg ρ = ρ) →
      foldPages now gs fs cid cc pages rows = rows := by
  intro pages
  induction pages with
  | nil => intro rows _ _; rfl
  | cons page rest ih =>
    intro rows hn hsat
    rw [foldPages_cons,
      foldRecords_fixes now gs fs cid cc hgs page.packages rows hn
        (hsat page (List.mem_cons_self _ _))]
    exact ih _ hn (fun pg hpg => hsat pg (List.mem_cons_of_mem _ hpg))

theorem record_ids_take_sublist :
    ∀ (pages : List CollectionPackages) (k : Nat),
      (record_ids (pages.take k)).Sublist (record_ids pages) := by
  intro pages
  induction pages with
  | nil => intro k; rw [List.take_nil]
  | cons page rest ih =>
    intro k
    cases k with
    | zero => exact List.nil_sublist _
    | succ k =>
      rw [List.take_succ_cons, record_ids_cons, record_ids_cons]
      exact List.Sublist.append_left (ih k) _

theorem process_pages_none_rows (now : Nat)
    (gs : String → Except String PackageSummary) (fs : Bool) (cid : Nat)
    (cc : String) :
    ∀ (pages : List CollectionPackages) (c pn : Nat)
      (st : List PackageRow × List String),
      (process_pages now gs fs cid cc none pages c pn st).2.2.1 =
        foldPages now gs fs cid cc pages st.1 := by
  intro pages
  induction pages with
  | nil => intro c pn st; rfl
  | cons page rest ih =>
    intro c pn st
    simp only [process_pages, max_pages_reached_none, Bool.false_eq_true, if_false]
    rw [ih, foldPages_cons]
    congr 1
    exact foldl_records_fst now gs fs cid cc page.packages st

/-- **C5.**  Ingesting the same pages twice (in either basic or full mode,
with a deterministic detail fetcher that answers the identifier it was asked
for) yields the same stored state as ingesting them once: the second run
changes nothing, the row count is unchanged, and no duplicate rows appear
(identifier uniqueness is preserved). -/
theorem C5_ingest_idempotent :
    ∀ (now : Nat) (pages : List CollectionPackages)
      (gs : String → Except String PackageSummary) (cc : String)
      (mp : Option Nat) (fs : Bool) (db : DB),
      (∀ i s, gs i = .ok s → s.package_id = i) →
      (db.packages.map PackageRow.package_id).Nodup →
      (record_ids pages).Nodup →
      (ingest_collection_packages now pages gs cc mp fs
          (ingest_collection_packages now pages gs cc mp fs db).db).db =
        (ingest_collection_packages now pages gs cc mp fs db).db ∧
      ((ingest_collection_packages now pages gs cc mp fs db).db.packages.map
          PackageRow.package_id).Nodup ∧
      (ingest_collection_packages now pages gs cc mp fs
          (ingest_collection_packages now pages gs cc mp fs db).db).db.packages.length =
        (ingest_collection_packages now pages gs cc mp fs db).db.packages.length := by
  intro now pages gs cc mp fs db hgs hn hr
  unfold ingest_collection_packages
  cases hfc : findBy CollectionRow.collection_code db.collections cc with
  | none =>
    dsimp only
    rw [hfc]
    exact ⟨rfl, hn, rfl⟩
  | some c =>
    dsimp only
    rw [hfc]
    dsimp only
    obtain ⟨pages2, heq, hr2⟩ :
        ∃ pages2,
          (∀ st : List PackageRow × List String,
            process_pages now gs fs c.id cc mp pages 0 0 st =
              process_pages now gs fs c.id cc none pages2 0 0 st) ∧
          (record_ids pages2).Nodup := by
      cases mp with
      | none => exact ⟨pages, fun st => rfl, hr⟩
      | some m =>
        cases m with
        | zero =>
          exact ⟨pages, fun st => process_pages_some_zero now gs fs c.id cc pages 0 0 st, hr⟩
        | succ m =>
          refine ⟨pages.take (m + 1), fun st => ?_,
            List.Nodup.sublist (record_ids_take_sublist pages (m + 1)) hr⟩
          rw [process_pages_take now gs fs c.id cc pages 0 0 (m + 1) st (by omega),
            Nat.sub_zero]
    simp only [heq]
    have hP1 : (process_pages now gs fs c.id cc none pages2 0 0 (db.packages, [])).2.2.1 =
        foldPages now gs fs c.id cc pages2 db.packages :=
      process_pages_none_rows now gs fs c.id cc pages2 0 0 (db.packages, [])
    have hnod : ((foldPages now gs fs c.id cc pages2 db.packages).map
        PackageRow.package_id).Nodup :=
      foldPages_nodup now gs fs c.id cc pages2 db.packages hn
    have hsat := foldPages_saturates now gs fs c.id cc hgs pages2 db.packages hr2
    have hfix : foldPages now gs fs c.id cc pages2
        (foldPages now gs fs c.id cc pages2 db.packages) =
        foldPages now gs fs c.id cc pages2 db.packages :=
      foldPages_fixes now gs fs c.id cc hgs pages2 _ hnod hsat
    have hP2 : (process_pages now gs fs c.id cc none pages2 0 0
        ((process_pages now gs fs c.id cc none pages2 0 0 (db.packages, [])).2.2.1,
          [])).2.2.1 =
        (process_pages now gs fs c.id cc none pages2 0 0 (db.packages, [])).2.2.1 := by
      have h3 := process_pages_none_rows now gs fs c.id cc pages2 0 0
        ((process_pages now gs fs c.id cc none pages2 0 0 (db.packages, [])).2.2.1, [])
      rw [h3]
      dsimp only
      rw [hP1]
      exact hfix
    refine ⟨?_, ?_, ?_⟩
    · rw [hP2]
    · rw [hP1]
      exact hnod
    · rw [hP2]

/-- **C5, witness.**  Idempotency on the concrete three-record page over the
concrete store: the detail fetcher `sample_get_summary` answers the
identifier it is asked for, and the second ingestion changes nothing. -/
theorem C5_ingest_idempotent_witness :
    (sample_db.packages.map PackageRow.package_id).Nodup ∧
    (record_ids [sample_page_c3]).Nodup ∧
    ((ingest_collection_packages 3 [sample_page_c3] sample_get_summary "BILLS" none
        true (ingest_collection_packages 3 [sample_page_c3] sample_get_summary
          "BILLS" none true sample_db).db).db =
      (ingest_collection_packages 3 [sample_page_c3] sample_get_summary "BILLS" none
        true sample_db).db ∧
     ((ingest_collection_packages 3 [sample_page_c3] sample_get_summary "BILLS" none
        true sample_db).db.packages.map PackageRow.package_id).Nodup ∧
     (ingest_collection_packages 3 [sample_page_c3] sample_get_summary "BILLS" none
        true (ingest_collection_packages 3 [sample_page_c3] sample_get_summary
          "BILLS" none true sample_db).db).db.packages.length =
      (ingest_collection_packages 3 [sample_page_c3] sample_get_summary "BILLS" none
        true sample_db).db.packages.length) :=
  ⟨by decide, by decide,
   C5_ingest_idempotent 3 [sample_page_c3] sample_get_summary "BILLS" none true
     sample_db
     (fun i s h => by
       unfold sample_get_summary at h
       by_cases hi : (i == "P2") = true
       · rw [if_pos hi] at h
         exact absurd h (by simp)
       · rw [if_neg hi] at h
         injection h with h2
         subst h2
         rfl)
     (by decide) (by decide)⟩

end GovInfo











